import Mathlib

/-!
Verification development for the PokeButler repository.

Shallow embedding of the blackjack card/hand helpers
(`src/utils/blackjack_helpers.py`), the deck (`src/utils/blackjack_deck.py`),
the game state machine (`src/utils/blackjack_game.py`), the circuit breaker
(`src/utils/circuit_breaker.py`) and the database cache store
(`src/utils/database.py`), together with theorems settling the frozen claims.

Conventions: Python `int` values that are only ever non-negative are modelled
as `Nat`; Python exceptions from `Deck.draw` (IndexError on an empty deck) are
modelled by returning `Option` from the stateful game operations (`none` means
the Python code would raise); monotonic time is modelled as a `Nat` passed
explicitly to each call.
-/

namespace PokeButler

/-! ## Cards (`src/utils/blackjack_deck.py`: `Card`) -/

inductive Suit where
  | spades | hearts | diamonds | clubs
deriving DecidableEq, Repr

inductive Rank where
  | ace | r2 | r3 | r4 | r5 | r6 | r7 | r8 | r9 | r10 | jack | queen | king
deriving DecidableEq, Repr

structure Card where
  suit : Suit
  rank : Rank
deriving DecidableEq, Repr

/-- Numeric value contributed by a non-Ace card, and by an Ace counted low
(the `BLACKJACK_ACE_LOW_VALUE = 1` branch of `is_soft_hand`). -/
def cardLowValue (c : Card) : Nat :=
  match c.rank with
  | .ace => 1
  | .jack | .queen | .king => 10
  | .r2 => 2 | .r3 => 3 | .r4 => 4 | .r5 => 5 | .r6 => 6
  | .r7 => 7 | .r8 => 8 | .r9 => 9 | .r10 => 10

/-- Value contributed by a card in the first pass of `calculate_hand_value`:
Aces count as `BLACKJACK_ACE_HIGH_VALUE = 11`, faces as 10. -/
def cardHighValue (c : Card) : Nat :=
  match c.rank with
  | .ace => 11
  | .jack | .queen | .king => 10
  | .r2 => 2 | .r3 => 3 | .r4 => 4 | .r5 => 5 | .r6 => 6
  | .r7 => 7 | .r8 => 8 | .r9 => 9 | .r10 => 10

/-- Number of Aces counted in the first pass of `calculate_hand_value`. -/
def aceCount (cards : List Card) : Nat :=
  (cards.filter (fun c => c.rank = Rank.ace)).length

/-- The first-pass total of `calculate_hand_value` (every Ace counted as 11). -/
def highTotal (cards : List Card) : Nat :=
  (cards.map cardHighValue).sum

/-- The `while total > 21 and aces > 0` adjustment loop of
`calculate_hand_value`, recursing on the number of Aces left to downgrade. -/
def adjustAces : Nat → Nat → Nat
  | total, 0 => total
  | total, aces + 1 => if 21 < total then adjustAces (total - 10) aces else total

/-- `calculate_hand_value` from `src/utils/blackjack_helpers.py`. -/
def calculate_hand_value (cards : List Card) : Nat :=
  if cards = [] then 0
  else adjustAces (highTotal cards) (aceCount cards)

/-- `is_blackjack` from `src/utils/blackjack_helpers.py`
(`BLACKJACK_INITIAL_CARDS_COUNT = 2`, `BLACKJACK_VALUE = 21`). -/
def is_blackjack (cards : List Card) : Bool :=
  if cards.length ≠ 2 then false
  else calculate_hand_value cards = 21

/-- `is_bust` from `src/utils/blackjack_helpers.py`. -/
def is_bust (cards : List Card) : Bool :=
  21 < calculate_hand_value cards

/-- `is_soft_hand` from `src/utils/blackjack_helpers.py`. -/
def is_soft_hand (cards : List Card) : Bool :=
  if ¬ cards.any (fun c => c.rank = Rank.ace) then false
  else (cards.map cardLowValue).sum + 10 ≤ 21

/-- `can_split` from `src/utils/blackjack_helpers.py`. -/
def can_split (cards : List Card) : Bool :=
  if cards.length ≠ 2 then false
  else cards[0]?.map (·.rank) = cards[1]?.map (·.rank)

/-! ## Deck (`src/utils/blackjack_deck.py`: `Deck`) -/

/-- `Deck.SUITS`, in source order. -/
def SUITS : List Suit := [.spades, .hearts, .diamonds, .clubs]

/-- `Deck.RANKS`, in source order. -/
def RANKS : List Rank :=
  [.ace, .r2, .r3, .r4, .r5, .r6, .r7, .r8, .r9, .r10, .jack, .queen, .king]

/-- One pass of `Deck._initialize_decks`: all 52 suit/rank combinations. -/
def singleDeck : List Card :=
  SUITS.flatMap (fun s => RANKS.map (fun r => ⟨s, r⟩))

/-- The unshuffled shoe built by `Deck._initialize_decks` with
`BLACKJACK_NUM_DECKS_IN_SHOE = 2`. -/
def freshShoe : List Card := singleDeck ++ singleDeck

/-- `Deck.draw`: pops the LAST card of the list (`self.cards.pop()`);
`none` models the IndexError raised on an empty deck. -/
def drawCard (cards : List Card) : Option (Card × List Card) :=
  match cards.getLast? with
  | none => none
  | some c => some (c, cards.dropLast)

/-- The seed actually stored by `Deck.__init__`:
`self.seed = seed or random.randint(1, 1000000)`.  Python `or` replaces both
`None` and `0` (falsy) by the freshly drawn random integer `randInt`. -/
def effectiveSeed (seed : Option Int) (randInt : Int) : Int :=
  match seed with
  | none => randInt
  | some s => if s = 0 then randInt else s

/-- The `Deck` object: stored seed plus shuffled card list. -/
structure DeckState where
  seed : Int
  cards : List Card
deriving DecidableEq, Repr

/-- `Deck.__init__`: store the effective seed, build the shoe, and shuffle it
with the PRNG seeded by that seed.  `random.seed(s); random.shuffle(cards)`
is a deterministic function of the seed, modelled by the parameter
`shuffle : Int → List Card → List Card`. -/
def mkDeck (shuffle : Int → List Card → List Card) (seed : Option Int)
    (randInt : Int) : DeckState :=
  let s := effectiveSeed seed randInt
  { seed := s, cards := shuffle s freshShoe }

/-- Repeatedly `draw()` until the deck is empty, listing the drawn cards in
draw order. -/
def drawAll (cards : List Card) : List Card :=
  if hne : cards = [] then []
  else cards.getLast hne :: drawAll cards.dropLast
termination_by cards.length
decreasing_by
  have : 0 < cards.length := List.length_pos.mpr hne
  simp [List.length_dropLast]; omega

/-! ## Game state machine (`src/utils/blackjack_game.py`) -/

inductive GamePhase where
  | LOBBY | DEALING | PLAYING | DEALER_TURN | RESULTS | ENDED
deriving DecidableEq, Repr

inductive HandStatus where
  | ACTIVE | STAND | BUST | BLACKJACK | SPLIT_ACES | SURRENDER
deriving DecidableEq, Repr

/-- `PlayerHand` dataclass. -/
structure PlayerHand where
  cards : List Card
  status : HandStatus
  is_split : Bool
  is_split_aces : Bool
deriving DecidableEq, Repr

/-- `PlayerHand()` with all defaults. -/
def emptyHand : PlayerHand :=
  { cards := [], status := .ACTIVE, is_split := false, is_split_aces := false }

/-- `Player` dataclass. -/
structure Player where
  user_id : Nat
  username : String
  hands : List PlayerHand
  is_dealer : Bool
  current_hand_index : Nat
deriving DecidableEq, Repr

/-- `Player.get_current_hand` (`self.hands[self.current_hand_index]`).
Out-of-range access would raise in Python and never happens on well-formed
states; it is modelled by the default `PlayerHand()`. -/
def Player.currentHand (p : Player) : PlayerHand :=
  p.hands.getD p.current_hand_index emptyHand

/-- `Player.all_hands_finished`. -/
def Player.allHandsFinished (p : Player) : Bool :=
  p.hands.all (fun h => h.status ≠ HandStatus.ACTIVE)

/-- Replace the player's current hand (`self.hands[i] = ...` style mutation). -/
def Player.setHand (p : Player) (h : PlayerHand) : Player :=
  { p with hands := p.hands.set p.current_hand_index h }

/-- `BlackjackGame` state. -/
structure Game where
  channel_id : Nat
  dealer_id : Nat
  max_players : Nat
  timeout : Nat
  use_emojis : Bool
  dealer : Player
  players : List Player
  deck : List Card
  phase : GamePhase
  current_turn_index : Nat
deriving DecidableEq, Repr

/-- `BlackjackGame.__init__` (deck passed in: `Deck()` shuffles with a random
seed, so the freshly shuffled card order is a parameter). -/
def initGame (channel_id dealer_id : Nat) (dealer_name : String)
    (max_players timeout : Nat) (deck : List Card) : Game :=
  { channel_id := channel_id
    dealer_id := dealer_id
    max_players := max_players
    timeout := timeout
    use_emojis := true
    dealer := { user_id := dealer_id, username := dealer_name,
                hands := [emptyHand], is_dealer := true, current_hand_index := 0 }
    players := []
    deck := deck
    phase := .LOBBY
    current_turn_index := 0 }

/-- `BlackjackGame.toggle_style`. -/
def toggleStyle (g : Game) : Bool × Game :=
  (!g.use_emojis, { g with use_emojis := !g.use_emojis })

/-- `BlackjackGame.add_player`. -/
def addPlayer (g : Game) (uid : Nat) (username : String) : Bool × Game :=
  if g.phase ≠ GamePhase.LOBBY then (false, g)
  else if g.max_players ≤ g.players.length then (false, g)
  else if g.players.any (fun p => p.user_id = uid) then (false, g)
  else if uid = g.dealer_id then (false, g)
  else (true, { g with players := g.players ++
    [{ user_id := uid, username := username, hands := [emptyHand],
       is_dealer := false, current_hand_index := 0 }] })

/-- `BlackjackGame.remove_player`. -/
def removePlayer (g : Game) (uid : Nat) : Bool × Game :=
  if g.phase ≠ GamePhase.LOBBY then (false, g)
  else (true, { g with players := g.players.filter (fun p => p.user_id ≠ uid) })

/-- `BlackjackGame.get_current_player`. -/
def getCurrentPlayer (g : Game) : Option Player :=
  if g.phase = GamePhase.DEALER_TURN then some g.dealer
  else if g.phase ≠ GamePhase.PLAYING then none
  else g.players[g.current_turn_index]?

/-- Write back the mutated current player object.  In Python the mutation is
by reference: the object returned by `get_current_player` is `self.dealer`
during `DEALER_TURN` and `self.players[self.current_turn_index]` during
`PLAYING`. -/
def writeCurrentPlayer (g : Game) (p : Player) : Game :=
  if g.phase = GamePhase.DEALER_TURN then { g with dealer := p }
  else { g with players := g.players.set g.current_turn_index p }

/-- `BlackjackGame._check_all_players_busted_or_surrendered`.  A hand with
status ACTIVE, STAND, BLACKJACK or SPLIT_ACES is still competitive. -/
def competitiveStatus (s : HandStatus) : Bool :=
  s = HandStatus.ACTIVE ∨ s = HandStatus.STAND ∨
    s = HandStatus.BLACKJACK ∨ s = HandStatus.SPLIT_ACES

def allPlayersBustedOrSurrendered (g : Game) : Bool :=
  if g.players.isEmpty then false
  else g.players.all (fun p => p.hands.all (fun h => ¬ competitiveStatus h.status))

/-- `self.dealer.hands[0]` (the dealer always holds exactly one hand). -/
def dealerHand (g : Game) : PlayerHand :=
  g.dealer.hands.getD 0 emptyHand

/-- `BlackjackGame.can_dealer_hit`: H17 rule, with the empty-hand guard
(`if not self.dealer.hands[0].cards: return False`). -/
def canDealerHit (g : Game) : Bool :=
  let cards := (dealerHand g).cards
  if cards.isEmpty then false
  else
    let v := calculate_hand_value cards
    v < 17 ∨ (v = 17 ∧ is_soft_hand cards)

/-- `BlackjackGame.can_dealer_stand`. -/
def canDealerStand (g : Game) : Bool := ¬ canDealerHit g

/-- `BlackjackGame._check_dealer_auto_stand`. -/
def checkDealerAutoStand (g : Game) : Game :=
  if g.phase ≠ GamePhase.DEALER_TURN then g
  else
    let hand := dealerHand g
    let v := calculate_hand_value hand.cards
    if v < 17 then g
    else if v = 17 ∧ is_soft_hand hand.cards then g
    else
      { g with
        dealer := { g.dealer with
          hands := g.dealer.hands.set 0 { hand with status := .STAND } }
        phase := .RESULTS }

/-- The `while` loop in `_advance_turn` (and `start_game`) that skips players
whose hands are all finished, starting at index `i`
(`while idx < len(players) and players[idx].all_hands_finished(): idx += 1`). -/
def skipFinished (ps : List Player) (i : Nat) : Nat :=
  if h : i < ps.length then
    if ps[i].allHandsFinished then skipFinished ps (i + 1) else i
  else i
termination_by ps.length - i
decreasing_by omega

/-- The second half of `_advance_turn` (after the move-to-next-hand branch):
dealer-finished check, all-busted check, then advance the seat pointer.
This part performs no draws, so it is total. -/
def advanceSeats (g : Game) : Game :=
  let dealerDone : Bool :=
    match getCurrentPlayer g with
    | some p => p.is_dealer &&
        (decide (p.currentHand.status = HandStatus.BUST) ||
         decide (p.currentHand.status = HandStatus.STAND))
    | none => false
  if dealerDone then { g with phase := .RESULTS }
  else if allPlayersBustedOrSurrendered g then { g with phase := .RESULTS }
  else
    let i := skipFinished g.players (g.current_turn_index + 1)
    let g1 := { g with current_turn_index := i }
    if g1.players.length ≤ i then
      checkDealerAutoStand { g1 with phase := .DEALER_TURN }
    else g1

/-- `BlackjackGame._advance_turn`, with explicit fuel for the recursive call
made when a deferred split hand resolves to SPLIT_ACES.  The recursion depth
is bounded by the current player's hand count, so the fuel chosen by
`advanceTurn` below always suffices. -/
def advanceTurnAux : Nat → Game → Option Game
  | 0, _ => none
  | fuel + 1, g =>
    match getCurrentPlayer g with
    | some p =>
      if ¬ p.allHandsFinished ∧ p.current_hand_index + 1 < p.hands.length then
        let p1 := { p with current_hand_index := p.current_hand_index + 1 }
        let ch := p1.currentHand
        if ch.cards.length = 1 then
          match drawCard g.deck with
          | none => none
          | some (c, deck') =>
            let ch1 := { ch with cards := ch.cards ++ [c] }
            if ch1.is_split_aces then
              let g1 := writeCurrentPlayer { g with deck := deck' }
                (p1.setHand { ch1 with status := .SPLIT_ACES })
              advanceTurnAux fuel g1
            else
              some (writeCurrentPlayer { g with deck := deck' } (p1.setHand ch1))
        else some (writeCurrentPlayer g p1)
      else some (advanceSeats g)
    | none => some (advanceSeats g)

/-- Fuel bound for `advanceTurnAux`: more than any player's hand count. -/
def advanceFuel (g : Game) : Nat :=
  g.dealer.hands.length + (g.players.map (fun p => p.hands.length)).sum + 1

def advanceTurn (g : Game) : Option Game :=
  advanceTurnAux (advanceFuel g) g

/-- `BlackjackGame.hit`.  Result `some (none, g)` is the invalid-move signal
(Python returns `None`); outer `none` models an IndexError from `draw`. -/
def hitAct (g : Game) (uid : Nat) : Option (Option Card × Game) :=
  match getCurrentPlayer g with
  | none => some (none, g)
  | some p =>
    if p.user_id ≠ uid then some (none, g)
    else if p.is_dealer ∧ canDealerStand g then some (none, g)
    else
      let hand := p.currentHand
      if hand.status ≠ HandStatus.ACTIVE then some (none, g)
      else
        match drawCard g.deck with
        | none => none
        | some (c, deck') =>
          let hand1 := { hand with cards := hand.cards ++ [c] }
          if is_bust hand1.cards then
            let g1 := writeCurrentPlayer { g with deck := deck' }
              (p.setHand { hand1 with status := .BUST })
            (advanceTurn g1).map (fun g2 => (some c, g2))
          else if p.is_dealer then
            let p1 := p.setHand hand1
            let g1 := writeCurrentPlayer { g with deck := deck' } p1
            if canDealerStand g1 then
              some (some c,
                { writeCurrentPlayer { g with deck := deck' }
                    (p1.setHand { hand1 with status := .STAND }) with
                  phase := .RESULTS })
            else some (some c, g1)
          else
            some (some c, writeCurrentPlayer { g with deck := deck' } (p.setHand hand1))

/-- `BlackjackGame.stand`. -/
def standAct (g : Game) (uid : Nat) : Option (Bool × Game) :=
  match getCurrentPlayer g with
  | none => some (false, g)
  | some p =>
    if p.user_id ≠ uid then some (false, g)
    else if p.is_dealer ∧ ¬ canDealerStand g then some (false, g)
    else
      let hand := p.currentHand
      if hand.status ≠ HandStatus.ACTIVE then some (false, g)
      else
        let g1 := writeCurrentPlayer g (p.setHand { hand with status := .STAND })
        if p.is_dealer then some (true, { g1 with phase := .RESULTS })
        else (advanceTurn g1).map (fun g2 => (true, g2))

/-- `BlackjackGame.double_down`. -/
def doubleDownAct (g : Game) (uid : Nat) : Option (Option Card × Game) :=
  match getCurrentPlayer g with
  | none => some (none, g)
  | some p =>
    if p.user_id ≠ uid then some (none, g)
    else if p.is_dealer then some (none, g)
    else
      let hand := p.currentHand
      if hand.cards.length ≠ 2 then some (none, g)
      else if hand.status ≠ HandStatus.ACTIVE then some (none, g)
      else
        match drawCard g.deck with
        | none => none
        | some (c, deck') =>
          let hand1 := { hand with cards := hand.cards ++ [c] }
          let hand2 := { hand1 with
            status := if is_bust hand1.cards then HandStatus.BUST else .STAND }
          let g1 := writeCurrentPlayer { g with deck := deck' } (p.setHand hand2)
          (advanceTurn g1).map (fun g2 => (some c, g2))

/-- `BlackjackGame.split`. -/
def splitAct (g : Game) (uid : Nat) : Option (Bool × Game) :=
  match getCurrentPlayer g with
  | none => some (false, g)
  | some p =>
    if p.user_id ≠ uid then some (false, g)
    else if p.is_dealer then some (false, g)
    else
      let hand := p.currentHand
      if ¬ can_split hand.cards then some (false, g)
      else if hand.status ≠ HandStatus.ACTIVE then some (false, g)
      else
        match hand.cards with
        | [card1, card2] =>
          let isAces := card1.rank = Rank.ace
          match drawCard g.deck with
          | none => none
          | some (nc1, deck1) =>
            let hand1 : PlayerHand :=
              { cards := [card1, nc1], status := .ACTIVE,
                is_split := true, is_split_aces := isAces }
            let hand2 : PlayerHand :=
              { cards := [card2], status := .ACTIVE,
                is_split := true, is_split_aces := isAces }
            if isAces then
              match drawCard deck1 with
              | none => none
              | some (nc2, deck2) =>
                let hand1a := { hand1 with status := HandStatus.SPLIT_ACES }
                let hand2a :=
                  { hand2 with cards := [card2, nc2], status := HandStatus.SPLIT_ACES }
                let newHands := (p.hands.set p.current_hand_index hand1a).insertIdx
                  (p.current_hand_index + 1) hand2a
                let p1 := { p with hands := newHands }
                let g1 := writeCurrentPlayer { g with deck := deck2 } p1
                (advanceTurn g1).map (fun g2 => (true, g2))
            else
              let newHands := (p.hands.set p.current_hand_index hand1).insertIdx
                (p.current_hand_index + 1) hand2
              let p1 := { p with hands := newHands }
              some (true, writeCurrentPlayer { g with deck := deck1 } p1)
        | _ => some (false, g)

/-- `BlackjackGame.surrender`. -/
def surrenderAct (g : Game) (uid : Nat) : Option (Bool × Game) :=
  match getCurrentPlayer g with
  | none => some (false, g)
  | some p =>
    if p.user_id ≠ uid then some (false, g)
    else if p.is_dealer then some (false, g)
    else
      let hand := p.currentHand
      if hand.cards.length ≠ 2 ∨ hand.is_split then some (false, g)
      else if hand.status ≠ HandStatus.ACTIVE then some (false, g)
      else
        let g1 := writeCurrentPlayer g (p.setHand { hand with status := .SURRENDER })
        (advanceTurn g1).map (fun g2 => (true, g2))

/-- Append a card to a player's first hand
(`player.hands[0].cards.append(card)` in `_deal_initial_cards`). -/
def giveCardToFirstHand (p : Player) (c : Card) : Player :=
  { p with hands := p.hands.modifyHead (fun h => { h with cards := h.cards ++ [c] }) }

/-- One dealing round of `_deal_initial_cards`: one card to each player in
seat order. -/
def dealRound : List Player → List Card → Option (List Player × List Card)
  | [], deck => some ([], deck)
  | p :: rest, deck =>
    match drawCard deck with
    | none => none
    | some (c, deck') =>
      match dealRound rest deck' with
      | none => none
      | some (rest', deck'') => some (giveCardToFirstHand p c :: rest', deck'')

/-- `BlackjackGame._deal_initial_cards`: round 1 to every seat then the
dealer, round 2 likewise. -/
def dealInitialCards (g : Game) : Option Game :=
  match dealRound g.players g.deck with
  | none => none
  | some (ps1, d1) =>
    match drawCard d1 with
    | none => none
    | some (c1, d2) =>
      let dealer1 := giveCardToFirstHand g.dealer c1
      match dealRound ps1 d2 with
      | none => none
      | some (ps2, d3) =>
        match drawCard d3 with
        | none => none
        | some (c2, d4) =>
          let dealer2 := giveCardToFirstHand dealer1 c2
          some { g with players := ps2, deck := d4, dealer := dealer2 }

/-- Set the status of a player's first hand (blackjack marking in
`start_game`). -/
def markFirstHand (p : Player) (s : HandStatus) : Player :=
  { p with hands := p.hands.modifyHead (fun h => { h with status := s }) }

/-- `BlackjackGame.start_game`. -/
def startGame (g : Game) : Option (Bool × Game) :=
  if g.phase ≠ GamePhase.LOBBY then some (false, g)
  else if g.players.length = 0 then some (false, g)
  else
    match dealInitialCards { g with phase := .DEALING } with
    | none => none
    | some g1 =>
      if is_blackjack (g1.dealer.hands.getD 0 emptyHand).cards then
        let dealer1 := markFirstHand g1.dealer HandStatus.BLACKJACK
        some (true, { g1 with dealer := dealer1, phase := .RESULTS })
      else
        let ps := g1.players.map (fun p =>
          if is_blackjack (p.hands.getD 0 emptyHand).cards
          then markFirstHand p HandStatus.BLACKJACK else p)
        let g2 :=
          { g1 with players := ps, phase := GamePhase.PLAYING, current_turn_index := 0 }
        let i := skipFinished g2.players 0
        let g3 := { g2 with current_turn_index := i }
        if g3.players.length ≤ i then
          some (true, checkDealerAutoStand { g3 with phase := .DEALER_TURN })
        else some (true, g3)

/-- The reachable game states: the freshly constructed game, closed under
every public operation of `BlackjackGame` (an operation returning `none`
raised in Python and produces no new state). -/
inductive Reachable : Game → Prop
  | init (ch did : Nat) (dname : String) (mp tmo : Nat) (deck : List Card) :
      Reachable (initGame ch did dname mp tmo deck)
  | toggle {g r g'} : Reachable g → toggleStyle g = (r, g') → Reachable g'
  | add {g uid name r g'} : Reachable g → addPlayer g uid name = (r, g') →
      Reachable g'
  | remove {g uid r g'} : Reachable g → removePlayer g uid = (r, g') →
      Reachable g'
  | start {g r g'} : Reachable g → startGame g = some (r, g') → Reachable g'
  | hit {g uid r g'} : Reachable g → hitAct g uid = some (r, g') → Reachable g'
  | stand {g uid r g'} : Reachable g → standAct g uid = some (r, g') →
      Reachable g'
  | double {g uid r g'} : Reachable g → doubleDownAct g uid = some (r, g') →
      Reachable g'
  | split {g uid r g'} : Reachable g → splitAct g uid = some (r, g') →
      Reachable g'
  | surrender {g uid r g'} : Reachable g → surrenderAct g uid = some (r, g') →
      Reachable g'

/-! ## Circuit breaker (`src/utils/circuit_breaker.py`) -/

inductive CircuitState where
  | CLOSED | OPEN | HALF_OPEN
deriving DecidableEq, Repr

/-- Constructor parameters of `CircuitBreaker`.  Monotonic time is `Nat`. -/
structure CBConfig where
  failure_threshold : Nat
  recovery_timeout : Nat
  success_threshold : Nat
deriving DecidableEq, Repr

/-- Mutable state of `CircuitBreaker`. -/
structure CBState where
  state : CircuitState
  failure_count : Nat
  success_count : Nat
  last_failure_time : Option Nat
deriving DecidableEq, Repr

/-- What the wrapped operation does when it is actually invoked: return,
raise an exception in `expected_exceptions`, or raise an unmatched one. -/
inductive CBOutcome where
  | success | failure | unmatched
deriving DecidableEq, Repr

/-- Result of `CircuitBreaker.call`: either the breaker rejected the call
with `CircuitBreakerError` (operation never invoked), or the operation was
invoked and finished with the given outcome. -/
inductive CBCallResult where
  | rejected
  | invoked (o : CBOutcome)
deriving DecidableEq, Repr

/-- `CircuitBreaker._should_attempt_reset`. -/
def shouldAttemptReset (cfg : CBConfig) (s : CBState) (now : Nat) : Bool :=
  match s.last_failure_time with
  | none => true
  | some t => cfg.recovery_timeout ≤ now - t

/-- `CircuitBreaker._on_success`. -/
def cbOnSuccess (cfg : CBConfig) (s : CBState) : CBState :=
  let s1 := { s with failure_count := 0 }
  if s1.state = CircuitState.HALF_OPEN then
    let s2 := { s1 with success_count := s1.success_count + 1 }
    if cfg.success_threshold ≤ s2.success_count then
      { s2 with state := .CLOSED, success_count := 0 }
    else s2
  else s1

/-- `CircuitBreaker._on_failure`. -/
def cbOnFailure (cfg : CBConfig) (s : CBState) (now : Nat) : CBState :=
  let s1 :=
    { s with failure_count := s.failure_count + 1, last_failure_time := some now }
  if s1.state = CircuitState.HALF_OPEN then
    { s1 with state := .OPEN, success_count := 0 }
  else if cfg.failure_threshold ≤ s1.failure_count then
    { s1 with state := .OPEN }
  else s1

/-- `CircuitBreaker.call` at monotonic time `now`; `o` is what the wrapped
operation would do if invoked. -/
def cbCall (cfg : CBConfig) (s : CBState) (now : Nat) (o : CBOutcome) :
    CBCallResult × CBState :=
  let admitted : Option CBState :=
    if s.state = CircuitState.OPEN then
      if shouldAttemptReset cfg s now then
        some { s with state := .HALF_OPEN, success_count := 0 }
      else none
    else some s
  match admitted with
  | none => (.rejected, s)
  | some s1 =>
    match o with
    | .success => (.invoked .success, cbOnSuccess cfg s1)
    | .failure => (.invoked .failure, cbOnFailure cfg s1 now)
    | .unmatched => (.invoked .unmatched, s1)

/-- A sequence of `call`s: each event is (monotonic time, operation outcome);
returns the final breaker state. -/
def cbRun (cfg : CBConfig) : CBState → List (Nat × CBOutcome) → CBState
  | s, [] => s
  | s, (t, o) :: rest => cbRun cfg (cbCall cfg s t o).2 rest

/-! ## Cache store (`src/utils/database.py`: `Database.set_cache`) -/

/-- A row of the `api_cache` table. -/
structure CacheEntry where
  cache_key : String
  data : String
  created_at : Nat
  last_accessed : Nat
deriving DecidableEq, Repr

/-- `ORDER BY last_accessed ASC` on the `api_cache` table. -/
def sortByLastAccessed (c : List CacheEntry) : List CacheEntry :=
  c.mergeSort (fun a b => a.last_accessed ≤ b.last_accessed)

/-- The `INSERT ... ON CONFLICT(cache_key) DO UPDATE` upsert in `set_cache`:
refresh the row if the key exists, else append a new row. -/
def cacheUpsert (c : List CacheEntry) (key data : String) (now : Nat) :
    List CacheEntry :=
  if c.any (fun e => e.cache_key = key) then
    c.map (fun e =>
      if e.cache_key = key then
        { e with data := data, created_at := now, last_accessed := now }
      else e)
  else c ++ [{ cache_key := key, data := data, created_at := now,
               last_accessed := now }]

/-- The keys deleted by the eviction query in `set_cache`:
`SELECT cache_key FROM api_cache ORDER BY last_accessed ASC LIMIT remove_count`. -/
def evictionVictims (c : List CacheEntry) (removeCount : Nat) : List String :=
  ((sortByLastAccessed c).take removeCount).map (·.cache_key)

/-- `Database.set_cache`: when the entry count has reached `max_size`, delete
the `max(1, max_size // 10)` least-recently-accessed rows, then upsert. -/
def set_cache (c : List CacheEntry) (key data : String) (now max_size : Nat) :
    List CacheEntry :=
  let c1 :=
    if max_size ≤ c.length then
      let victims := evictionVictims c (max 1 (max_size / 10))
      c.filter (fun e => e.cache_key ∉ victims)
    else c
  cacheUpsert c1 key data now

/-! ## Helper lemmas: hand value -/

lemma adjustAces_le (a : Nat) : ∀ total : Nat, total - 10 * a ≤ 21 →
    adjustAces total a ≤ 21 := by
  induction a with
  | zero => intro total h; simpa [adjustAces] using h
  | succ a ih =>
    intro total h
    by_cases hgt : 21 < total
    · simp only [adjustAces, if_pos hgt]
      exact ih (total - 10) (by omega)
    · simp only [adjustAces, if_neg hgt]; omega

lemma adjustAces_bust (a : Nat) : ∀ total : Nat, 21 < total - 10 * a →
    adjustAces total a = total - 10 * a := by
  induction a with
  | zero => intro total _; simp [adjustAces]
  | succ a ih =>
    intro total h
    have hgt : 21 < total := by omega
    simp only [adjustAces, if_pos hgt]
    rw [ih (total - 10) (by omega)]
    omega

/-- Sample blackjack cards used in witnesses and counterexamples. -/
def aceSpades : Card := ⟨.spades, .ace⟩

def aceHearts : Card := ⟨.hearts, .ace⟩

def kingSpades : Card := ⟨.spades, .king⟩

def sixHearts : Card := ⟨.hearts, .r6⟩

def nineClubs : Card := ⟨.clubs, .r9⟩

def tenClubs : Card := ⟨.clubs, .r10⟩

def fiveDiamonds : Card := ⟨.diamonds, .r5⟩

/-! ## C2: hand-value algorithm -/

/-- C2.  `calculate_hand_value` counts every Ace as 11 and then runs the
downgrade loop `adjustAces`; whenever some assignment of 1-or-11 to the Aces
(i.e. some `k ≤ aceCount` downgrades, giving total `highTotal - 10*k`) keeps
the sum ≤ 21, the result is ≤ 21; otherwise the result equals
`highTotal - 10*aceCount`, the minimum achievable (bust) value over all such
assignments. -/
theorem calculate_hand_value_spec :
    ∀ cards : List Card,
      calculate_hand_value cards =
        (if cards = [] then 0 else adjustAces (highTotal cards) (aceCount cards)) ∧
      ((∃ k, k ≤ aceCount cards ∧ highTotal cards - 10 * k ≤ 21) →
        calculate_hand_value cards ≤ 21) ∧
      ((∀ k, k ≤ aceCount cards → 21 < highTotal cards - 10 * k) →
        calculate_hand_value cards = highTotal cards - 10 * aceCount cards ∧
        ∀ k, k ≤ aceCount cards →
          calculate_hand_value cards ≤ highTotal cards - 10 * k) := by
  intro cards
  refine ⟨rfl, ?_, ?_⟩
  · rintro ⟨k, hk, hle⟩
    by_cases hnil : cards = []
    · simp [calculate_hand_value, hnil]
    · simp only [calculate_hand_value, if_neg hnil]
      exact adjustAces_le _ _ (by omega)
  · intro hbust
    by_cases hnil : cards = []
    · exfalso
      have := hbust 0 (Nat.zero_le _)
      simp [highTotal, hnil] at this
    · have hb := hbust (aceCount cards) le_rfl
      simp only [calculate_hand_value, if_neg hnil]
      rw [adjustAces_bust _ _ hb]
      exact ⟨rfl, fun k hk => by omega⟩

/-- Closed instance of `calculate_hand_value_spec`: the soft hand A,K stays
≤ 21 via one downgrade path, and the bust hand K,10,5 evaluates to its
minimum value 25. -/
theorem calculate_hand_value_spec_witness :
    calculate_hand_value [aceSpades, kingSpades] ≤ 21 ∧
    calculate_hand_value [kingSpades, tenClubs, fiveDiamonds] =
      highTotal [kingSpades, tenClubs, fiveDiamonds] -
        10 * aceCount [kingSpades, tenClubs, fiveDiamonds] := by
  constructor
  · exact (calculate_hand_value_spec [aceSpades, kingSpades]).2.1
      ⟨0, by decide, by decide⟩
  · exact ((calculate_hand_value_spec [kingSpades, tenClubs, fiveDiamonds]).2.2
      (fun k hk => by
        have hk0 : k = 0 := by
          simpa [aceCount, kingSpades, tenClubs, fiveDiamonds] using hk
        subst hk0; decide)).1

/-! ## Helper lemmas: cache eviction order -/

lemma sortByLastAccessed_perm (c : List CacheEntry) :
    (sortByLastAccessed c).Perm c :=
  List.mergeSort_perm c _

lemma sortByLastAccessed_sorted (c : List CacheEntry) :
    List.Pairwise (fun a b : CacheEntry => a.last_accessed ≤ b.last_accessed)
      (sortByLastAccessed c) := by
  have h := @List.sorted_mergeSort CacheEntry
    (fun a b : CacheEntry => decide (a.last_accessed ≤ b.last_accessed))
    (fun a b c hab hbc => by simp only [decide_eq_true_eq] at *; omega)
    (fun a b => by simp only [Bool.or_eq_true, decide_eq_true_eq]; omega)
    c
  exact h.imp (fun hab => by simpa using hab)

/-! ## C7: size-bounded LRU eviction in `set_cache` -/

/-- C7.  When the entry count has reached `max_size`, `set_cache` deletes the
`max 1 (max_size / 10)` (≈10%, at least 1) entries with smallest
`last_accessed` and only then upserts the new entry: the evicted entries are
exactly the prefix of the `last_accessed`-sorted table, every evicted entry
was accessed no later than every surviving entry, and the result is the
upsert into the survivors. -/
theorem set_cache_lru_eviction :
    ∀ (c : List CacheEntry) (key data : String) (now m : Nat),
      (c.map (·.cache_key)).Nodup → m ≤ c.length →
      set_cache c key data now m =
        cacheUpsert
          (c.filter (fun e => e.cache_key ∉ evictionVictims c (max 1 (m / 10))))
          key data now ∧
      (c.filter (fun e => e.cache_key ∈ evictionVictims c (max 1 (m / 10)))).Perm
        ((sortByLastAccessed c).take (max 1 (m / 10))) ∧
      (c.filter (fun e => e.cache_key ∈ evictionVictims c (max 1 (m / 10)))).length
        = min (max 1 (m / 10)) c.length ∧
      (1 ≤ m →
        1 ≤ (c.filter
          (fun e => e.cache_key ∈ evictionVictims c (max 1 (m / 10)))).length) ∧
      (∀ e ∈ c.filter (fun e => e.cache_key ∈ evictionVictims c (max 1 (m / 10))),
       ∀ f ∈ c.filter (fun e => e.cache_key ∉ evictionVictims c (max 1 (m / 10))),
        e.last_accessed ≤ f.last_accessed) := by
  intro c key data now m hnd hm
  set n := max 1 (m / 10) with hn
  set s := sortByLastAccessed c with hs
  have hperm : s.Perm c := sortByLastAccessed_perm c
  have hnds : (s.map (·.cache_key)).Nodup :=
    (hperm.symm.map (·.cache_key)).nodup hnd
  have hsplit : s.take n ++ s.drop n = s := List.take_append_drop n s
  have htake : ∀ e ∈ s.take n, e.cache_key ∈ evictionVictims c n := by
    intro e he
    exact List.mem_map_of_mem _ he
  have hdrop : ∀ e ∈ s.drop n, e.cache_key ∉ evictionVictims c n := by
    intro e he hmem
    obtain ⟨e', he', hkey⟩ := List.mem_map.mp hmem
    have hnds' : ((s.take n).map (·.cache_key) ++
        (s.drop n).map (·.cache_key)).Nodup := by
      rw [← List.map_append, hsplit]; exact hnds
    have hdisj := (List.nodup_append.mp hnds').2.2
    exact hdisj (hkey ▸ List.mem_map_of_mem _ he') (List.mem_map_of_mem _ he)
  have hfilterTake :
      (s.take n).filter (fun e => e.cache_key ∈ evictionVictims c n) = s.take n :=
    List.filter_eq_self.mpr (fun e he => by simpa using htake e he)
  have hfilterDrop :
      (s.drop n).filter (fun e => e.cache_key ∈ evictionVictims c n) = [] :=
    List.filter_eq_nil_iff.mpr (fun e he => by simpa using hdrop e he)
  have hfilterTakeN :
      (s.take n).filter (fun e => e.cache_key ∉ evictionVictims c n) = [] :=
    List.filter_eq_nil_iff.mpr (fun e he => by simpa using htake e he)
  have hfilterDropN :
      (s.drop n).filter (fun e => e.cache_key ∉ evictionVictims c n) = s.drop n :=
    List.filter_eq_self.mpr (fun e he => by simpa using hdrop e he)
  have hfs : s.filter (fun e => e.cache_key ∈ evictionVictims c n) = s.take n := by
    conv_lhs => rw [← hsplit]
    rw [List.filter_append, hfilterTake, hfilterDrop, List.append_nil]
  have hfsN : s.filter (fun e => e.cache_key ∉ evictionVictims c n) = s.drop n := by
    conv_lhs => rw [← hsplit]
    rw [List.filter_append, hfilterTakeN, hfilterDropN, List.nil_append]
  have hevperm :
      (c.filter (fun e => e.cache_key ∈ evictionVictims c n)).Perm (s.take n) := by
    have := (hperm.symm).filter (fun e => decide (e.cache_key ∈ evictionVictims c n))
    rwa [hfs] at this
  have hkeptperm :
      (c.filter (fun e => e.cache_key ∉ evictionVictims c n)).Perm (s.drop n) := by
    have := (hperm.symm).filter (fun e => decide (e.cache_key ∉ evictionVictims c n))
    rwa [hfsN] at this
  have hlen :
      (c.filter (fun e => e.cache_key ∈ evictionVictims c n)).length
        = min n c.length := by
    rw [hevperm.length_eq, List.length_take, hperm.length_eq]
  refine ⟨?_, hevperm, hlen, ?_, ?_⟩
  · simp only [set_cache, if_pos hm]
  · intro hm1
    rw [hlen]
    have : 1 ≤ n := le_max_left _ _
    omega
  · intro e he f hf
    have heT : e ∈ s.take n := hevperm.mem_iff.mp he
    have hfD : f ∈ s.drop n := hkeptperm.mem_iff.mp hf
    have hsorted := sortByLastAccessed_sorted c
    rw [← hs, ← hsplit] at hsorted
    exact (List.pairwise_append.mp hsorted).2.2 e heT f hfD

/-- Closed instance of `set_cache_lru_eviction` on a concrete two-entry cache
at capacity 2: the single least-recently-accessed entry is evicted. -/
theorem set_cache_lru_eviction_witness :
    set_cache
        [{ cache_key := "a", data := "1", created_at := 0, last_accessed := 5 },
         { cache_key := "b", data := "2", created_at := 0, last_accessed := 3 }]
        "c" "3" 9 2 =
      cacheUpsert
        ([{ cache_key := "a", data := "1", created_at := 0, last_accessed := 5 },
          { cache_key := "b", data := "2", created_at := 0, last_accessed := 3 }].filter
          (fun e => e.cache_key ∉ evictionVictims
            [{ cache_key := "a", data := "1", created_at := 0, last_accessed := 5 },
             { cache_key := "b", data := "2", created_at := 0, last_accessed := 3 }]
            (max 1 (2 / 10))))
        "c" "3" 9 := by
  exact (set_cache_lru_eviction
    [{ cache_key := "a", data := "1", created_at := 0, last_accessed := 5 },
     { cache_key := "b", data := "2", created_at := 0, last_accessed := 3 }]
    "c" "3" 9 2 (by decide) (by decide)).1

/-! ## Helper lemmas: circuit breaker runs -/

lemma cbCall_closed_failure (cfg : CBConfig) (s : CBState) (t : Nat)
    (hs : ¬ s.state = CircuitState.OPEN) :
    cbCall cfg s t .failure = (.invoked .failure, cbOnFailure cfg s t) := by
  simp [cbCall, if_neg hs]

lemma cbOnFailure_below (cfg : CBConfig) (s : CBState) (t : Nat)
    (hs : s.state = CircuitState.CLOSED)
    (hthr : ¬ cfg.failure_threshold ≤ s.failure_count + 1) :
    (cbOnFailure cfg s t).state = CircuitState.CLOSED ∧
      (cbOnFailure cfg s t).failure_count = s.failure_count + 1 := by
  simp [cbOnFailure, hs, hthr]

lemma cbRun_failures_stay_closed (cfg : CBConfig) :
    ∀ (ts : List Nat) (s : CBState), s.state = CircuitState.CLOSED →
      s.failure_count + ts.length < cfg.failure_threshold →
      (cbRun cfg s (ts.map (fun t => (t, CBOutcome.failure)))).state =
          CircuitState.CLOSED ∧
        (cbRun cfg s (ts.map (fun t => (t, CBOutcome.failure)))).failure_count =
          s.failure_count + ts.length := by
  intro ts
  induction ts with
  | nil => intro s hs _; simpa [cbRun] using hs
  | cons t rest ih =>
    intro s hs hlt
    have hnotopen : ¬ s.state = CircuitState.OPEN := by rw [hs]; simp
    have hnothr : ¬ cfg.failure_threshold ≤ s.failure_count + 1 := by
      simp at hlt; omega
    obtain ⟨hfs, hfc⟩ := cbOnFailure_below cfg s t hs hnothr
    have hstep :
        cbRun cfg s ((t :: rest).map (fun u => (u, CBOutcome.failure))) =
          cbRun cfg (cbOnFailure cfg s t)
            (rest.map (fun u => (u, CBOutcome.failure))) := by
      simp [cbRun, cbCall_closed_failure cfg s t hnotopen]
    rw [hstep]
    have hrest := ih (cbOnFailure cfg s t) hfs
      (by rw [hfc]; simp at hlt ⊢; omega)
    refine ⟨hrest.1, ?_⟩
    rw [hrest.2, hfc]
    simp; omega

lemma cbRun_failures_open (cfg : CBConfig) :
    ∀ (ts : List Nat) (s : CBState), s.state = CircuitState.CLOSED → ts ≠ [] →
      s.failure_count + ts.length = cfg.failure_threshold →
      (cbRun cfg s (ts.map (fun t => (t, CBOutcome.failure)))).state =
        CircuitState.OPEN := by
  intro ts
  induction ts with
  | nil => intro s _ hne _; exact absurd rfl hne
  | cons t rest ih =>
    intro s hs _ hlen
    have hnotopen : ¬ s.state = CircuitState.OPEN := by rw [hs]; simp
    rcases rest with _ | ⟨t2, rest2⟩
    · have hthr : cfg.failure_threshold ≤ s.failure_count + 1 := by
        simp at hlen; omega
      simp [cbRun, cbCall_closed_failure cfg s t hnotopen, cbOnFailure, hs, hthr]
    · have hnothr : ¬ cfg.failure_threshold ≤ s.failure_count + 1 := by
        simp at hlen; omega
      obtain ⟨hfs, hfc⟩ := cbOnFailure_below cfg s t hs hnothr
      have hstep :
          cbRun cfg s ((t :: t2 :: rest2).map (fun u => (u, CBOutcome.failure))) =
            cbRun cfg (cbOnFailure cfg s t)
              ((t2 :: rest2).map (fun u => (u, CBOutcome.failure))) := by
        simp [cbRun, cbCall_closed_failure cfg s t hnotopen]
      rw [hstep]
      exact ih (cbOnFailure cfg s t) hfs (by simp)
        (by rw [hfc]; simp at hlen ⊢; omega)

lemma cbCall_half_open_success (cfg : CBConfig) (s : CBState) (t : Nat)
    (hs : ¬ s.state = CircuitState.OPEN) :
    cbCall cfg s t .success = (.invoked .success, cbOnSuccess cfg s) := by
  simp [cbCall, if_neg hs]

lemma cbOnSuccess_below (cfg : CBConfig) (s : CBState)
    (hs : s.state = CircuitState.HALF_OPEN)
    (hthr : ¬ cfg.success_threshold ≤ s.success_count + 1) :
    (cbOnSuccess cfg s).state = CircuitState.HALF_OPEN ∧
      (cbOnSuccess cfg s).success_count = s.success_count + 1 := by
  simp [cbOnSuccess, hs, hthr]

lemma cbRun_successes_stay_half_open (cfg : CBConfig) :
    ∀ (ts : List Nat) (s : CBState), s.state = CircuitState.HALF_OPEN →
      s.success_count + ts.length < cfg.success_threshold →
      (cbRun cfg s (ts.map (fun t => (t, CBOutcome.success)))).state =
          CircuitState.HALF_OPEN ∧
        (cbRun cfg s (ts.map (fun t => (t, CBOutcome.success)))).success_count =
          s.success_count + ts.length := by
  intro ts
  induction ts with
  | nil => intro s hs _; simpa [cbRun] using hs
  | cons t rest ih =>
    intro s hs hlt
    have hnotopen : ¬ s.state = CircuitState.OPEN := by rw [hs]; simp
    have hnothr : ¬ cfg.success_threshold ≤ s.success_count + 1 := by
      simp at hlt; omega
    obtain ⟨hss, hsc⟩ := cbOnSuccess_below cfg s hs hnothr
    have hstep :
        cbRun cfg s ((t :: rest).map (fun u => (u, CBOutcome.success))) =
          cbRun cfg (cbOnSuccess cfg s)
            (rest.map (fun u => (u, CBOutcome.success))) := by
      simp [cbRun, cbCall_half_open_success cfg s t hnotopen]
    rw [hstep]
    have hrest := ih (cbOnSuccess cfg s) hss
      (by rw [hsc]; simp at hlt ⊢; omega)
    refine ⟨hrest.1, ?_⟩
    rw [hrest.2, hsc]
    simp; omega

lemma cbRun_successes_close (cfg : CBConfig) :
    ∀ (ts : List Nat) (s : CBState), s.state = CircuitState.HALF_OPEN →
      ts ≠ [] → s.success_count + ts.length = cfg.success_threshold →
      (cbRun cfg s (ts.map (fun t => (t, CBOutcome.success)))).state =
        CircuitState.CLOSED := by
  intro ts
  induction ts with
  | nil => intro s _ hne _; exact absurd rfl hne
  | cons t rest ih =>
    intro s hs _ hlen
    have hnotopen : ¬ s.state = CircuitState.OPEN := by rw [hs]; simp
    rcases rest with _ | ⟨t2, rest2⟩
    · have hthr : cfg.success_threshold ≤ s.success_count + 1 := by
        simp at hlen; omega
      simp [cbRun, cbCall_half_open_success cfg s t hnotopen, cbOnSuccess, hs, hthr]
    · have hnothr : ¬ cfg.success_threshold ≤ s.success_count + 1 := by
        simp at hlen; omega
      obtain ⟨hss, hsc⟩ := cbOnSuccess_below cfg s hs hnothr
      have hstep :
          cbRun cfg s ((t :: t2 :: rest2).map (fun u => (u, CBOutcome.success))) =
            cbRun cfg (cbOnSuccess cfg s)
              ((t2 :: rest2).map (fun u => (u, CBOutcome.success))) := by
        simp [cbRun, cbCall_half_open_success cfg s t hnotopen]
      rw [hstep]
      exact ih (cbOnSuccess cfg s) hss (by simp)
        (by rw [hsc]; simp at hlen ⊢; omega)

/-! ## C3: circuit breaker lifecycle -/

/-- C3.  From a fresh CLOSED state, fewer than `failure_threshold`
consecutive matched failures leave the circuit CLOSED and exactly
`failure_threshold` open it; while OPEN within `recovery_timeout` of the last
failure a call is rejected without invoking the operation and the state is
unchanged; once `recovery_timeout` has elapsed the next call is admitted and
processed from the HALF_OPEN state (`success_count` reset); exactly
`success_threshold` consecutive successes in HALF_OPEN close the circuit
(fewer leave it HALF_OPEN); and a single failure in HALF_OPEN reopens it. -/
theorem circuit_breaker_lifecycle :
    (∀ (cfg : CBConfig) (sc : Nat) (lft : Option Nat) (ts : List Nat),
      (ts.length < cfg.failure_threshold →
        (cbRun cfg ⟨.CLOSED, 0, sc, lft⟩
          (ts.map (fun t => (t, CBOutcome.failure)))).state = .CLOSED) ∧
      (ts.length = cfg.failure_threshold → ts ≠ [] →
        (cbRun cfg ⟨.CLOSED, 0, sc, lft⟩
          (ts.map (fun t => (t, CBOutcome.failure)))).state = .OPEN)) ∧
    (∀ (cfg : CBConfig) (s : CBState) (now t : Nat) (o : CBOutcome),
      s.state = .OPEN → s.last_failure_time = some t →
      now - t < cfg.recovery_timeout →
      cbCall cfg s now o = (.rejected, s)) ∧
    (∀ (cfg : CBConfig) (s : CBState) (now t : Nat) (o : CBOutcome),
      s.state = .OPEN → s.last_failure_time = some t →
      cfg.recovery_timeout ≤ now - t →
      cbCall cfg s now o =
        (.invoked o,
          match o with
          | .success => cbOnSuccess cfg { s with state := .HALF_OPEN, success_count := 0 }
          | .failure => cbOnFailure cfg { s with state := .HALF_OPEN, success_count := 0 } now
          | .unmatched => { s with state := .HALF_OPEN, success_count := 0 })) ∧
    (∀ (cfg : CBConfig) (fc : Nat) (lft : Option Nat) (ts : List Nat),
      (ts.length < cfg.success_threshold →
        (cbRun cfg ⟨.HALF_OPEN, fc, 0, lft⟩
          (ts.map (fun t => (t, CBOutcome.success)))).state = .HALF_OPEN) ∧
      (ts.length = cfg.success_threshold → ts ≠ [] →
        (cbRun cfg ⟨.HALF_OPEN, fc, 0, lft⟩
          (ts.map (fun t => (t, CBOutcome.success)))).state = .CLOSED)) ∧
    (∀ (cfg : CBConfig) (s : CBState) (now : Nat),
      s.state = .HALF_OPEN →
      (cbCall cfg s now .failure).2.state = .OPEN) := by
  refine ⟨?_, ?_, ?_, ?_, ?_⟩
  · intro cfg sc lft ts
    constructor
    · intro hlt
      exact (cbRun_failures_stay_closed cfg ts ⟨.CLOSED, 0, sc, lft⟩ rfl
        (by simpa using hlt)).1
    · intro hlen hne
      exact cbRun_failures_open cfg ts ⟨.CLOSED, 0, sc, lft⟩ rfl hne
        (by simpa using hlen)
  · intro cfg s now t o hopen hlft hlt
    have hreset : ¬ shouldAttemptReset cfg s now = true := by
      simp [shouldAttemptReset, hlft]; omega
    simp [cbCall, hopen, hreset]
  · intro cfg s now t o hopen hlft hle
    have hreset : shouldAttemptReset cfg s now = true := by
      simp [shouldAttemptReset, hlft]; omega
    cases o <;> simp [cbCall, hopen, hreset]
  · intro cfg fc lft ts
    constructor
    · intro hlt
      exact (cbRun_successes_stay_half_open cfg ts ⟨.HALF_OPEN, fc, 0, lft⟩ rfl
        (by simpa using hlt)).1
    · intro hlen hne
      exact cbRun_successes_close cfg ts ⟨.HALF_OPEN, fc, 0, lft⟩ rfl hne
        (by simpa using hlen)
  · intro cfg s now hhalf
    have hnotopen : ¬ s.state = CircuitState.OPEN := by rw [hhalf]; simp
    simp [cbCall, cbOnFailure, if_neg hnotopen, hhalf]

/-- Closed instance of `circuit_breaker_lifecycle` at the default
configuration (threshold 5, timeout 60, success threshold 2): five failures
open the circuit, a call 10s later is rejected, and one HALF_OPEN failure
reopens. -/
theorem circuit_breaker_lifecycle_witness :
    (cbRun ⟨5, 60, 2⟩ ⟨.CLOSED, 0, 0, none⟩
      ([1, 2, 3, 4, 5].map (fun t => (t, CBOutcome.failure)))).state =
        CircuitState.OPEN ∧
    cbCall ⟨5, 60, 2⟩ ⟨.OPEN, 5, 0, some 5⟩ 15 CBOutcome.success =
      (.rejected, ⟨.OPEN, 5, 0, some 5⟩) ∧
    (cbCall ⟨5, 60, 2⟩ ⟨.HALF_OPEN, 0, 1, some 5⟩ 70 CBOutcome.failure).2.state =
      CircuitState.OPEN := by
  refine ⟨?_, ?_, ?_⟩
  · exact circuit_breaker_lifecycle.1 ⟨5, 60, 2⟩ 0 none [1, 2, 3, 4, 5]
      |>.2 (by decide) (by decide)
  · exact circuit_breaker_lifecycle.2.1 ⟨5, 60, 2⟩ ⟨.OPEN, 5, 0, some 5⟩ 15 5
      CBOutcome.success rfl rfl (by decide)
  · exact circuit_breaker_lifecycle.2.2.2.2 ⟨5, 60, 2⟩ ⟨.HALF_OPEN, 0, 1, some 5⟩
      70 rfl

/-! ## Helper lemmas: deck draws -/

lemma drawAll_concat (l : List Card) (a : Card) :
    drawAll (l ++ [a]) = a :: drawAll l := by
  rw [drawAll]
  have hne : ¬ (l ++ [a] = []) := by simp
  simp [hne, List.getLast_concat, List.dropLast_concat]

lemma drawAll_eq_reverse (cs : List Card) : drawAll cs = cs.reverse := by
  induction cs using List.reverseRecOn with
  | nil => simp [drawAll]
  | append_singleton l a ih => rw [drawAll_concat, ih, List.reverse_concat]

/-! ## C9: deck seeding -/

/-- C9.  `Deck.__init__` treats an explicit seed of 0 exactly like no seed
(`seed or random.randint(1, 1000000)`): the stored seed is the random draw,
so two seed-0 decks are not guaranteed to produce identical draw sequences
(exhibited below for a shuffle function and two random draws in range);
while for every nonzero explicit seed the construction is independent of the
random draw, and two such decks produce identical sequences over all 104
draws (the shoe permuted by any length-preserving shuffle has 104 cards). -/
theorem deck_seed_zero_and_determinism :
    (∀ (shuffle : Int → List Card → List Card) (r : Int),
      mkDeck shuffle (some 0) r = mkDeck shuffle none r) ∧
    (∀ (shuffle : Int → List Card → List Card) (r : Int),
      1 ≤ r → r ≤ 1000000 →
      (mkDeck shuffle (some 0) r).seed = r ∧
      1 ≤ (mkDeck shuffle (some 0) r).seed ∧
      (mkDeck shuffle (some 0) r).seed ≤ 1000000) ∧
    (∃ (shuffle : Int → List Card → List Card) (r1 r2 : Int),
      1 ≤ r1 ∧ r1 ≤ 1000000 ∧ 1 ≤ r2 ∧ r2 ≤ 1000000 ∧
      drawAll (mkDeck shuffle (some 0) r1).cards ≠
        drawAll (mkDeck shuffle (some 0) r2).cards) ∧
    (∀ (shuffle : Int → List Card → List Card) (s r1 r2 : Int),
      s ≠ 0 →
      mkDeck shuffle (some s) r1 = mkDeck shuffle (some s) r2 ∧
      drawAll (mkDeck shuffle (some s) r1).cards =
        drawAll (mkDeck shuffle (some s) r2).cards ∧
      ((∀ (z : Int) (l : List Card), (shuffle z l).length = l.length) →
        (drawAll (mkDeck shuffle (some s) r1).cards).length = 104)) := by
  refine ⟨?_, ?_, ?_, ?_⟩
  · intro shuffle r
    simp [mkDeck, effectiveSeed]
  · intro shuffle r h1 h2
    refine ⟨?_, ?_, ?_⟩ <;> simp [mkDeck, effectiveSeed] <;> omega
  · refine ⟨fun z l => if z = 1 then l else l.reverse, 1, 2, by omega, by omega,
      by omega, by omega, ?_⟩
    rw [drawAll_eq_reverse, drawAll_eq_reverse]
    simp only [mkDeck, effectiveSeed]
    norm_num
    decide
  · intro shuffle s r1 r2 hs
    have heq : mkDeck shuffle (some s) r1 = mkDeck shuffle (some s) r2 := by
      simp [mkDeck, effectiveSeed, hs]
    refine ⟨heq, by rw [heq], ?_⟩
    intro hlen
    rw [drawAll_eq_reverse, List.length_reverse]
    simp only [mkDeck, effectiveSeed, if_neg hs]
    rw [hlen]
    decide

/-- Closed instance of `deck_seed_zero_and_determinism`: with the identity
shuffle and seed 42, the two constructions coincide and yield 104 draws. -/
theorem deck_seed_zero_and_determinism_witness :
    mkDeck (fun _ l => l) (some 42) 7 = mkDeck (fun _ l => l) (some 42) 9 ∧
    (drawAll (mkDeck (fun _ l => l) (some 42) 7).cards).length = 104 := by
  have h := deck_seed_zero_and_determinism.2.2.2 (fun _ l => l) 42 7 9 (by omega)
  exact ⟨h.1, h.2.2 (fun z l => rfl)⟩

/-! ## Helper lemmas: invalid-move rejection -/

lemma hitAct_wrong_user {g : Game} {uid : Nat} {p : Player}
    (hp : getCurrentPlayer g = some p) (hne : p.user_id ≠ uid) :
    hitAct g uid = some (none, g) := by
  simp [hitAct, hp, hne]

lemma hitAct_not_active {g : Game} {uid : Nat} {p : Player}
    (hp : getCurrentPlayer g = some p) (huid : p.user_id = uid)
    (hst : p.currentHand.status ≠ HandStatus.ACTIVE) :
    hitAct g uid = some (none, g) := by
  by_cases hd : p.is_dealer = true ∧ canDealerStand g = true
  · simp [hitAct, hp, huid, hd]
  · simp [hitAct, hp, huid, hd, hst]

lemma standAct_wrong_user {g : Game} {uid : Nat} {p : Player}
    (hp : getCurrentPlayer g = some p) (hne : p.user_id ≠ uid) :
    standAct g uid = some (false, g) := by
  simp [standAct, hp, hne]

lemma standAct_not_active {g : Game} {uid : Nat} {p : Player}
    (hp : getCurrentPlayer g = some p) (huid : p.user_id = uid)
    (hst : p.currentHand.status ≠ HandStatus.ACTIVE) :
    standAct g uid = some (false, g) := by
  by_cases hd : p.is_dealer = true ∧ ¬ canDealerStand g = true
  · simp [standAct, hp, huid, hd]
  · simp [standAct, hp, huid, hd, hst]

lemma doubleDownAct_wrong_user {g : Game} {uid : Nat} {p : Player}
    (hp : getCurrentPlayer g = some p) (hne : p.user_id ≠ uid) :
    doubleDownAct g uid = some (none, g) := by
  simp [doubleDownAct, hp, hne]

lemma doubleDownAct_not_active {g : Game} {uid : Nat} {p : Player}
    (hp : getCurrentPlayer g = some p) (huid : p.user_id = uid)
    (hst : p.currentHand.status ≠ HandStatus.ACTIVE) :
    doubleDownAct g uid = some (none, g) := by
  by_cases hd : p.is_dealer = true
  · simp [doubleDownAct, hp, huid, hd]
  · by_cases hlen : p.currentHand.cards.length = 2
    · simp [doubleDownAct, hp, huid, hd, hlen, hst]
    · simp [doubleDownAct, hp, huid, hd, hlen]

lemma splitAct_wrong_user {g : Game} {uid : Nat} {p : Player}
    (hp : getCurrentPlayer g = some p) (hne : p.user_id ≠ uid) :
    splitAct g uid = some (false, g) := by
  simp [splitAct, hp, hne]

lemma splitAct_not_active {g : Game} {uid : Nat} {p : Player}
    (hp : getCurrentPlayer g = some p) (huid : p.user_id = uid)
    (hst : p.currentHand.status ≠ HandStatus.ACTIVE) :
    splitAct g uid = some (false, g) := by
  by_cases hd : p.is_dealer = true
  · simp [splitAct, hp, huid, hd]
  · by_cases hcs : can_split p.currentHand.cards = true
    · simp [splitAct, hp, huid, hd, hcs, hst]
    · simp [splitAct, hp, huid, hd, hcs]

lemma surrenderAct_wrong_user {g : Game} {uid : Nat} {p : Player}
    (hp : getCurrentPlayer g = some p) (hne : p.user_id ≠ uid) :
    surrenderAct g uid = some (false, g) := by
  simp [surrenderAct, hp, hne]

lemma surrenderAct_not_active {g : Game} {uid : Nat} {p : Player}
    (hp : getCurrentPlayer g = some p) (huid : p.user_id = uid)
    (hst : p.currentHand.status ≠ HandStatus.ACTIVE) :
    surrenderAct g uid = some (false, g) := by
  by_cases hd : p.is_dealer = true
  · simp [surrenderAct, hp, huid, hd]
  · by_cases hsur : p.currentHand.cards.length ≠ 2 ∨ p.currentHand.is_split = true
    · simp [surrenderAct, hp, huid, hd, hsur]
    · simp [surrenderAct, hp, huid, hd, hsur, hst]

/-! ## C4: invalid moves never mutate state -/

/-- C4.  For every game state and action among hit, stand, double-down,
split and surrender: when the supplied user id is not the current player's
id, or the current hand's status is not ACTIVE, the call returns the
invalid-move signal (`None` for hit/double-down, `False` for the others) and
the entire game state — phase, deck, every hand, turn index — is returned
unchanged. -/
theorem invalid_moves_preserve_state :
    ∀ (g : Game) (uid : Nat) (p : Player),
      getCurrentPlayer g = some p →
      (p.user_id ≠ uid ∨ p.currentHand.status ≠ HandStatus.ACTIVE) →
      hitAct g uid = some (none, g) ∧
      standAct g uid = some (false, g) ∧
      doubleDownAct g uid = some (none, g) ∧
      splitAct g uid = some (false, g) ∧
      surrenderAct g uid = some (false, g) := by
  intro g uid p hp hbad
  by_cases huid : p.user_id = uid
  · have hst : p.currentHand.status ≠ HandStatus.ACTIVE := by
      rcases hbad with h | h
      · exact absurd huid h
      · exact h
    exact ⟨hitAct_not_active hp huid hst, standAct_not_active hp huid hst,
      doubleDownAct_not_active hp huid hst, splitAct_not_active hp huid hst,
      surrenderAct_not_active hp huid hst⟩
  · exact ⟨hitAct_wrong_user hp huid, standAct_wrong_user hp huid,
      doubleDownAct_wrong_user hp huid, splitAct_wrong_user hp huid,
      surrenderAct_wrong_user hp huid⟩

/-- Sample mid-round game: one seated player holding a pair of Aces, dealer
showing K,6, phase PLAYING, three cards left in the deck. -/
def samplePlayerHand : PlayerHand :=
  { cards := [aceSpades, aceHearts]
    status := .ACTIVE
    is_split := false
    is_split_aces := false }

def samplePlayer : Player :=
  { user_id := 7
    username := "P"
    hands := [samplePlayerHand]
    is_dealer := false
    current_hand_index := 0 }

def sampleDealerHand : PlayerHand :=
  { cards := [kingSpades, sixHearts]
    status := .ACTIVE
    is_split := false
    is_split_aces := false }

def sampleDealer : Player :=
  { user_id := 1
    username := "D"
    hands := [sampleDealerHand]
    is_dealer := true
    current_hand_index := 0 }

def sampleGame : Game :=
  { channel_id := 0
    dealer_id := 1
    max_players := 3
    timeout := 60
    use_emojis := true
    dealer := sampleDealer
    players := [samplePlayer]
    deck := [fiveDiamonds, nineClubs, tenClubs]
    phase := .PLAYING
    current_turn_index := 0 }

/-- Closed instance of `invalid_moves_preserve_state`: user 99 (not the
current player) gets the invalid-move signal from all five actions, with the
game unchanged. -/
theorem invalid_moves_preserve_state_witness :
    hitAct sampleGame 99 = some (none, sampleGame) ∧
    standAct sampleGame 99 = some (false, sampleGame) ∧
    doubleDownAct sampleGame 99 = some (none, sampleGame) ∧
    splitAct sampleGame 99 = some (false, sampleGame) ∧
    surrenderAct sampleGame 99 = some (false, sampleGame) :=
  invalid_moves_preserve_state sampleGame 99 samplePlayer (by decide)
    (Or.inl (by decide))

/-! ## Helper lemmas: turn advancement without deferred split hands -/

lemma advanceTurnAux_succ (n : Nat) (g : Game) :
    advanceTurnAux (n + 1) g =
      match getCurrentPlayer g with
      | some p =>
        if ¬ p.allHandsFinished ∧ p.current_hand_index + 1 < p.hands.length then
          let p1 := { p with current_hand_index := p.current_hand_index + 1 }
          let ch := p1.currentHand
          if ch.cards.length = 1 then
            match drawCard g.deck with
            | none => none
            | some (c, deck') =>
              let ch1 := { ch with cards := ch.cards ++ [c] }
              if ch1.is_split_aces then
                let g1 := writeCurrentPlayer { g with deck := deck' }
                  (p1.setHand { ch1 with status := .SPLIT_ACES })
                advanceTurnAux n g1
              else
                some (writeCurrentPlayer { g with deck := deck' } (p1.setHand ch1))
          else some (writeCurrentPlayer g p1)
        else some (advanceSeats g)
      | none => some (advanceSeats g) := rfl

lemma advanceFuel_succ (g : Game) :
    advanceFuel g =
      g.dealer.hands.length + (g.players.map (fun p => p.hands.length)).sum + 1 :=
  rfl

lemma advanceTurn_of_finished {g : Game} {p : Player}
    (hp : getCurrentPlayer g = some p) (hf : p.allHandsFinished = true) :
    advanceTurn g = some (advanceSeats g) := by
  have hcond : ¬ (¬ p.allHandsFinished = true ∧
      p.current_hand_index + 1 < p.hands.length) := by
    rintro ⟨hnf, _⟩; exact hnf hf
  simp only [advanceTurn, advanceFuel_succ, advanceTurnAux_succ, hp]
  rw [if_neg hcond]

lemma advanceTurn_of_none {g : Game} (hp : getCurrentPlayer g = none) :
    advanceTurn g = some (advanceSeats g) := by
  simp only [advanceTurn, advanceFuel_succ, advanceTurnAux_succ, hp]

lemma advanceTurn_of_last_hand {g : Game} {p : Player}
    (hp : getCurrentPlayer g = some p)
    (hl : p.hands.length ≤ p.current_hand_index + 1) :
    advanceTurn g = some (advanceSeats g) := by
  have hcond : ¬ (¬ p.allHandsFinished = true ∧
      p.current_hand_index + 1 < p.hands.length) := by
    rintro ⟨_, hlt⟩; omega
  simp only [advanceTurn, advanceFuel_succ, advanceTurnAux_succ, hp]
  rw [if_neg hcond]

/-! ## Helper lemmas: dealer-turn state updates -/

lemma writeCurrentPlayer_dealer_turn {g : Game} {q : Player}
    (hph : g.phase = GamePhase.DEALER_TURN) :
    writeCurrentPlayer g q = { g with dealer := q } := by
  simp [writeCurrentPlayer, hph]

lemma getCurrentPlayer_dealer_turn {g : Game}
    (hph : g.phase = GamePhase.DEALER_TURN) :
    getCurrentPlayer g = some g.dealer := by
  simp [getCurrentPlayer, hph]

lemma getD_zero_set_zero {l : List PlayerHand} {x : PlayerHand} (h : l ≠ []) :
    (l.set 0 x).getD 0 emptyHand = x := by
  cases l with
  | nil => exact absurd rfl h
  | cons a t => simp

lemma advanceSeats_dealer_done {g : Game} {p : Player}
    (hp : getCurrentPlayer g = some p) (hd : p.is_dealer = true)
    (hst : p.currentHand.status = HandStatus.BUST ∨
      p.currentHand.status = HandStatus.STAND) :
    advanceSeats g = { g with phase := GamePhase.RESULTS } := by
  have hdone : (match getCurrentPlayer g with
      | some q => q.is_dealer &&
          (decide (q.currentHand.status = HandStatus.BUST) ||
           decide (q.currentHand.status = HandStatus.STAND))
      | none => false) = true := by
    rw [hp]
    rcases hst with h | h <;> simp [hd, h]
  simp only [advanceSeats]
  rw [if_pos hdone]

lemma canDealerHit_nonempty {g : Game} (hhit : canDealerHit g = true) :
    (dealerHand g).cards ≠ [] := by
  intro hnil
  rw [canDealerHit] at hhit
  simp only [hnil, List.isEmpty_nil, if_true] at hhit
  exact Bool.false_ne_true hhit

lemma canDealerHit_iff {g : Game} (hne : (dealerHand g).cards ≠ []) :
    canDealerHit g = true ↔
      (calculate_hand_value (dealerHand g).cards < 17 ∨
       (calculate_hand_value (dealerHand g).cards = 17 ∧
        is_soft_hand (dealerHand g).cards = true)) := by
  have hempty : (dealerHand g).cards.isEmpty = false := by
    simpa [List.isEmpty_iff] using hne
  simp [canDealerHit, hempty]

lemma canDealerStand_not (g : Game) : canDealerStand g = !canDealerHit g := by
  simp [canDealerStand]

lemma canDealerHit_true_of {g : Game}
    (hne : (dealerHand g).cards ≠ [])
    (hcond : calculate_hand_value (dealerHand g).cards < 17 ∨
      (calculate_hand_value (dealerHand g).cards = 17 ∧
       is_soft_hand (dealerHand g).cards = true)) :
    canDealerHit g = true := by
  have hempty : (dealerHand g).cards.isEmpty = false := by
    simpa [List.isEmpty_iff] using hne
  simp only [canDealerHit, hempty, Bool.false_eq_true, if_false,
    decide_eq_true_eq]
  exact hcond

lemma canDealerHit_false_of {g : Game}
    (hcond : ¬ (calculate_hand_value (dealerHand g).cards < 17 ∨
      (calculate_hand_value (dealerHand g).cards = 17 ∧
       is_soft_hand (dealerHand g).cards = true))) :
    canDealerHit g = false := by
  by_cases hne : (dealerHand g).cards = []
  · simp [canDealerHit, hne]
  · have hempty : (dealerHand g).cards.isEmpty = false := by
      simpa [List.isEmpty_iff] using hne
    simp only [canDealerHit, hempty, Bool.false_eq_true, if_false,
      decide_eq_false_iff_not]
    exact hcond

/-! ## C5: dealer hit-on-soft-17 policy -/

def emptyHandDealer : Player := { sampleDealer with hands := [emptyHand] }

def emptyDealerGame : Game :=
  { sampleGame with dealer := emptyHandDealer, phase := GamePhase.DEALER_TURN }

/-- C5 counterexample.  The claim states the dealer may hit exactly when the
hand value is below 17 (or soft 17); on the empty dealer hand the value is
0 < 17 yet `can_dealer_hit` returns `False` (the explicit
`if not self.dealer.hands[0].cards` guard), so the claimed equivalence fails
for this dealer hand. -/
theorem dealer_hit_rule_counterexample :
    calculate_hand_value (dealerHand emptyDealerGame).cards < 17 ∧
    canDealerHit emptyDealerGame = false := by decide

/-- C5 (amended: the equivalence holds for every NONEMPTY dealer hand).  The
dealer may hit exactly when the hand value is < 17 or equals a soft 17.  The
condition is evaluated on entry to DEALER_TURN (`_check_dealer_auto_stand`:
a true condition leaves the state untouched, a false one sets the dealer's
hand to STAND and the phase to RESULTS without drawing), and after every
dealer hit (`hit`: bust sets BUST and moves to RESULTS; a now-false
condition sets STAND and moves to RESULTS; otherwise the hand stays ACTIVE
in DEALER_TURN). -/
theorem dealer_hits_soft_seventeen :
    (∀ g : Game, (dealerHand g).cards ≠ [] →
      (canDealerHit g = true ↔
        (calculate_hand_value (dealerHand g).cards < 17 ∨
         (calculate_hand_value (dealerHand g).cards = 17 ∧
          is_soft_hand (dealerHand g).cards = true)))) ∧
    (∀ g : Game, g.phase = GamePhase.DEALER_TURN →
      (canDealerHit g = true → checkDealerAutoStand g = g) ∧
      (canDealerHit g = false → (dealerHand g).cards ≠ [] →
        (checkDealerAutoStand g).phase = GamePhase.RESULTS ∧
        (checkDealerAutoStand g).deck = g.deck ∧
        (dealerHand (checkDealerAutoStand g)).status = HandStatus.STAND ∧
        (dealerHand (checkDealerAutoStand g)).cards = (dealerHand g).cards)) ∧
    (∀ (g : Game) (uid : Nat) (h : PlayerHand) (c : Card) (deck' : List Card),
      g.phase = GamePhase.DEALER_TURN → g.dealer.is_dealer = true →
      g.dealer.user_id = uid → g.dealer.hands = [h] →
      g.dealer.current_hand_index = 0 → h.status = HandStatus.ACTIVE →
      canDealerHit g = true → drawCard g.deck = some (c, deck') →
      (is_bust (h.cards ++ [c]) = true →
        ∃ g', hitAct g uid = some (some c, g') ∧
          g'.phase = GamePhase.RESULTS ∧
          (dealerHand g').status = HandStatus.BUST ∧
          (dealerHand g').cards = h.cards ++ [c]) ∧
      (is_bust (h.cards ++ [c]) = false →
        (calculate_hand_value (h.cards ++ [c]) < 17 ∨
          (calculate_hand_value (h.cards ++ [c]) = 17 ∧
           is_soft_hand (h.cards ++ [c]) = true)) →
        ∃ g', hitAct g uid = some (some c, g') ∧
          g'.phase = GamePhase.DEALER_TURN ∧
          (dealerHand g').status = HandStatus.ACTIVE ∧
          (dealerHand g').cards = h.cards ++ [c]) ∧
      (is_bust (h.cards ++ [c]) = false →
        ¬ (calculate_hand_value (h.cards ++ [c]) < 17 ∨
          (calculate_hand_value (h.cards ++ [c]) = 17 ∧
           is_soft_hand (h.cards ++ [c]) = true)) →
        ∃ g', hitAct g uid = some (some c, g') ∧
          g'.phase = GamePhase.RESULTS ∧
          (dealerHand g').status = HandStatus.STAND ∧
          (dealerHand g').cards = h.cards ++ [c])) := by
  refine ⟨?_, ?_, ?_⟩
  · intro g hne
    exact canDealerHit_iff hne
  · intro g hph
    constructor
    · intro hhit
      have hne := canDealerHit_nonempty hhit
      rcases (canDealerHit_iff hne).mp hhit with hlt | ⟨heq, hsoft⟩
      · simp [checkDealerAutoStand, hph, hlt]
      · simp [checkDealerAutoStand, hph, heq, hsoft]
    · intro hnohit hne
      have hcond : ¬ (calculate_hand_value (dealerHand g).cards < 17 ∨
          (calculate_hand_value (dealerHand g).cards = 17 ∧
           is_soft_hand (dealerHand g).cards = true)) := by
        intro hc
        rw [(canDealerHit_iff hne).mpr hc] at hnohit
        simp at hnohit
      have hcond1 : ¬ calculate_hand_value (dealerHand g).cards < 17 :=
        fun hlt => hcond (Or.inl hlt)
      have hcond2 : ¬ (calculate_hand_value (dealerHand g).cards = 17 ∧
          is_soft_hand (dealerHand g).cards = true) :=
        fun hc => hcond (Or.inr hc)
      have hhne : g.dealer.hands ≠ [] := by
        intro hnil
        exact hne (by rw [dealerHand, hnil]; rfl)
      simp only [checkDealerAutoStand, hph]
      rw [if_neg (by simp), if_neg hcond1, if_neg hcond2]
      refine ⟨rfl, rfl, ?_, ?_⟩
      · simp only [dealerHand]
        rw [getD_zero_set_zero hhne]
      · simp only [dealerHand]
        rw [getD_zero_set_zero hhne]
  · intro g uid h c deck' hph hdl huid hhands hidx hstat hhit hdraw
    have hget : getCurrentPlayer g = some g.dealer :=
      getCurrentPlayer_dealer_turn hph
    have hch : g.dealer.currentHand = h := by
      simp [Player.currentHand, hhands, hidx]
    have hstand : canDealerStand g = false := by
      simp [canDealerStand, hhit]
    have hphase' : ({ g with deck := deck' } : Game).phase = GamePhase.DEALER_TURN :=
      hph
    refine ⟨?_, ?_, ?_⟩
    · intro hbust
      set hb : PlayerHand :=
        { h with cards := h.cards ++ [c]
                 status := HandStatus.BUST } with hhb
      set q : Player := g.dealer.setHand hb with hq
      set g1 : Game := { g with deck := deck'
                                dealer := q } with hg1
      have hqhands : q.hands = [hb] := by
        simp [hq, Player.setHand, hhands, hidx]
      have hfin : q.allHandsFinished = true := by
        simp [Player.allHandsFinished, hqhands, hhb]
      have hget1 : getCurrentPlayer g1 = some q := by
        rw [hg1]; exact getCurrentPlayer_dealer_turn hph
      have hqidx : q.current_hand_index = 0 := by
        simp [hq, Player.setHand, hidx]
      have hqch : q.currentHand = hb := by
        rw [Player.currentHand, hqidx, hqhands]
        rfl
      have hadv : advanceTurn g1 = some (advanceSeats g1) :=
        advanceTurn_of_finished hget1 hfin
      have hseats : advanceSeats g1 = { g1 with phase := GamePhase.RESULTS } :=
        advanceSeats_dealer_done hget1 (by simp [hq, Player.setHand, hdl])
          (Or.inl (by rw [hqch, hhb]))
      refine ⟨{ g1 with phase := GamePhase.RESULTS }, ?_, rfl, ?_, ?_⟩
      · simp only [hitAct, hget, huid, ne_eq, not_true_eq_false, if_false,
          ite_not, hstand, Bool.and_false, hch, hstat, hdraw, hbust, if_true]
        rw [writeCurrentPlayer_dealer_turn hphase']
        rw [← hhb, ← hq, ← hg1, hadv, hseats]
        simp
      · simp [dealerHand, hqhands, hhb]
      · simp [dealerHand, hqhands, hhb]
    · intro hbust hcanhit
      set hb1 : PlayerHand := { cards := h.cards ++ [c]
                                status := HandStatus.ACTIVE
                                is_split := h.is_split
                                is_split_aces := h.is_split_aces } with hhb1
      set p1 : Player := g.dealer.setHand hb1 with hp1
      set g1 : Game := { g with deck := deck'
                                dealer := p1
                                phase := GamePhase.DEALER_TURN } with hg1
      have hp1hands : p1.hands = [hb1] := by
        simp [hp1, Player.setHand, hhands, hidx]
      have hdh1 : dealerHand g1 = hb1 := by
        rw [dealerHand]
        rw [show g1.dealer = p1 from by rw [hg1], hp1hands]
        rfl
      have hcards1 : hb1.cards = h.cards ++ [c] := by rw [hhb1]
      have hstand1 : canDealerStand g1 = false := by
        rw [canDealerStand_not, @canDealerHit_true_of g1
          (by rw [hdh1, hcards1]; simp) (by rw [hdh1, hcards1]; exact hcanhit)]
        rfl
      refine ⟨g1, ?_, by rw [hg1], by rw [hdh1, hhb1], by rw [hdh1, hcards1]⟩
      simp only [hitAct, hget, huid, ne_eq, not_true_eq_false, if_false,
        ite_not, hstand, Bool.and_false, Bool.false_eq_true, and_false,
        hch, hstat, hdraw, hbust, if_false, hdl, if_true, writeCurrentPlayer, hph,
        reduceIte]
      rw [if_neg (by rw [hstand1]; exact Bool.false_ne_true)]
    · intro hbust hnohit
      set hb1 : PlayerHand := { cards := h.cards ++ [c]
                                status := HandStatus.ACTIVE
                                is_split := h.is_split
                                is_split_aces := h.is_split_aces } with hhb1
      set p1 : Player := g.dealer.setHand hb1 with hp1
      set g1 : Game := { g with deck := deck'
                                dealer := p1
                                phase := GamePhase.DEALER_TURN } with hg1
      have hp1hands : p1.hands = [hb1] := by
        simp [hp1, Player.setHand, hhands, hidx]
      have hdh1 : dealerHand g1 = hb1 := by
        rw [dealerHand]
        rw [show g1.dealer = p1 from by rw [hg1], hp1hands]
        rfl
      have hcards1 : hb1.cards = h.cards ++ [c] := by rw [hhb1]
      have hstand1 : canDealerStand g1 = true := by
        rw [canDealerStand_not, @canDealerHit_false_of g1
          (by rw [hdh1, hcards1]; exact hnohit)]
        rfl
      set hs : PlayerHand := { cards := h.cards ++ [c]
                               status := HandStatus.STAND
                               is_split := h.is_split
                               is_split_aces := h.is_split_aces } with hhs
      set q2 : Player := p1.setHand hs with hq2
      set g2 : Game := { g with deck := deck'
                                dealer := q2
                                phase := GamePhase.RESULTS } with hg2
      have hp1idx : p1.current_hand_index = 0 := by
        simp [hp1, Player.setHand, hidx]
      have hq2hands : q2.hands = [hs] := by
        simp [hq2, Player.setHand, hp1idx, hp1hands]
      have hdh2 : dealerHand g2 = hs := by
        rw [dealerHand]
        rw [show g2.dealer = q2 from by rw [hg2], hq2hands]
        rfl
      refine ⟨g2, ?_, by rw [hg2], by rw [hdh2, hhs], by rw [hdh2, hhs]⟩
      simp only [hitAct, hget, huid, ne_eq, not_true_eq_false, if_false,
        ite_not, hstand, Bool.and_false, Bool.false_eq_true, and_false,
        hch, hstat, hdraw, hbust, if_false, hdl, if_true, writeCurrentPlayer, hph,
        reduceIte]
      rw [if_pos (by rw [hstand1])]

/-- Closed instance of `dealer_hits_soft_seventeen`: the dealer holding K,6
(hard 16) may hit, and the sample dealer-turn entry leaves the state alone. -/
theorem dealer_hits_soft_seventeen_witness :
    canDealerHit sampleGame = true ∧
    checkDealerAutoStand { sampleGame with phase := GamePhase.DEALER_TURN } =
      { sampleGame with phase := GamePhase.DEALER_TURN } := by
  constructor
  · exact (dealer_hits_soft_seventeen.1 sampleGame (by decide)).mpr
      (Or.inl (by decide))
  · exact (dealer_hits_soft_seventeen.2.1
      { sampleGame with phase := GamePhase.DEALER_TURN } rfl).1 (by decide)

/-! ## Helper lemmas: seat skipping and bust analysis -/

lemma skipFinished_le (ps : List Player) : ∀ i, i ≤ skipFinished ps i := by
  have H : ∀ n i, ps.length - i ≤ n → i ≤ skipFinished ps i := by
    intro n
    induction n with
    | zero =>
      intro i hle
      rw [skipFinished, dif_neg (by omega)]
    | succ n ih =>
      intro i hle
      rw [skipFinished]
      by_cases h : i < ps.length
      · rw [dif_pos h]
        by_cases hf : ps[i].allHandsFinished = true
        · rw [if_pos hf]
          exact le_trans (Nat.le_succ i) (ih (i + 1) (by omega))
        · rw [if_neg hf]
      · rw [dif_neg h]
  intro i
  exact H (ps.length - i) i le_rfl

lemma skipFinished_ge_length (ps : List Player)
    (hfin : ∀ p ∈ ps, p.allHandsFinished = true) :
    ∀ i, ps.length ≤ skipFinished ps i := by
  have H : ∀ n i, ps.length - i ≤ n → ps.length ≤ skipFinished ps i := by
    intro n
    induction n with
    | zero =>
      intro i hle
      rw [skipFinished, dif_neg (by omega)]
      omega
    | succ n ih =>
      intro i hle
      rw [skipFinished]
      by_cases h : i < ps.length
      · rw [dif_pos h, if_pos (hfin ps[i] (List.getElem_mem h))]
        exact ih (i + 1) (by omega)
      · rw [dif_neg h]; omega
  intro i
  exact H (ps.length - i) i le_rfl

lemma not_competitive_iff (s : HandStatus) :
    competitiveStatus s = false ↔
      (s = HandStatus.BUST ∨ s = HandStatus.SURRENDER) := by
  cases s <;> simp [competitiveStatus]

lemma allBusted_iff (g : Game) :
    allPlayersBustedOrSurrendered g = true ↔
      (g.players ≠ [] ∧ ∀ p ∈ g.players, ∀ h ∈ p.hands,
        h.status = HandStatus.BUST ∨ h.status = HandStatus.SURRENDER) := by
  rw [allPlayersBustedOrSurrendered]
  by_cases hnil : g.players.isEmpty
  · simp only [hnil, if_true]
    constructor
    · intro h; exact absurd h (by simp)
    · rintro ⟨hne, _⟩
      exact absurd (List.isEmpty_iff.mp hnil) hne
  · simp only [hnil, Bool.false_eq_true, if_false]
    rw [List.all_eq_true]
    constructor
    · intro hall
      refine ⟨fun hn => hnil (by simp [hn]), fun p hp h hh => ?_⟩
      have h2 := List.all_eq_true.mp (hall p hp) h hh
      have h3 : competitiveStatus h.status = false := by simpa using h2
      exact (not_competitive_iff _).mp h3
    · rintro ⟨_, hall⟩ p hp
      rw [List.all_eq_true]
      intro h hh
      have h3 : competitiveStatus h.status = false :=
        (not_competitive_iff _).mpr (hall p hp h hh)
      simpa using h3

lemma checkDealerAutoStand_fields (g : Game) :
    (checkDealerAutoStand g).current_turn_index = g.current_turn_index ∧
    (checkDealerAutoStand g).deck = g.deck ∧
    (checkDealerAutoStand g).players = g.players := by
  simp only [checkDealerAutoStand]
  by_cases h1 : g.phase ≠ GamePhase.DEALER_TURN
  · rw [if_pos h1]; exact ⟨rfl, rfl, rfl⟩
  · rw [if_neg h1]
    by_cases h2 : calculate_hand_value (dealerHand g).cards < 17
    · rw [if_pos h2]; exact ⟨rfl, rfl, rfl⟩
    · rw [if_neg h2]
      by_cases h3 : calculate_hand_value (dealerHand g).cards = 17 ∧
        is_soft_hand (dealerHand g).cards = true
      · rw [if_pos h3]; exact ⟨rfl, rfl, rfl⟩
      · rw [if_neg h3]; exact ⟨rfl, rfl, rfl⟩

/-! ## C6: skipping the dealer turn when all seats bust or surrender -/

lemma getCurrentPlayer_playing_mem {g : Game} {p : Player}
    (hph : g.phase = GamePhase.PLAYING) (hcp : getCurrentPlayer g = some p) :
    p ∈ g.players := by
  rw [getCurrentPlayer] at hcp
  simp only [hph] at hcp
  simp at hcp
  rcases List.getElem?_eq_some_iff.mp hcp with ⟨hlt, hel⟩
  exact hel ▸ List.getElem_mem hlt

/-- C6 (amended: at least one player must be seated for the direct-RESULTS
transition).  When turn advancement finds no seat with an ACTIVE hand (seats
being non-dealer players), the phase transitions directly to RESULTS — state
otherwise untouched, so the dealer draws no cards — if and only if at least
one player is seated and every hand of every seated player is BUST or
SURRENDER; otherwise the turn pointer skips past all seats, the phase becomes
DEALER_TURN (entering the dealer auto-stand check), and the deck is likewise
untouched. -/
theorem advance_turn_results_iff_all_busted :
    ∀ g : Game, g.phase = GamePhase.PLAYING →
      (∀ p ∈ g.players, p.is_dealer = false) →
      (∀ p ∈ g.players, ∀ h ∈ p.hands, h.status ≠ HandStatus.ACTIVE) →
      ((advanceTurn g = some { g with phase := GamePhase.RESULTS }) ↔
        (g.players ≠ [] ∧ ∀ p ∈ g.players, ∀ h ∈ p.hands,
          h.status = HandStatus.BUST ∨ h.status = HandStatus.SURRENDER)) ∧
      (¬ (g.players ≠ [] ∧ ∀ p ∈ g.players, ∀ h ∈ p.hands,
          h.status = HandStatus.BUST ∨ h.status = HandStatus.SURRENDER) →
        advanceTurn g = some (checkDealerAutoStand
          { g with phase := GamePhase.DEALER_TURN
                   current_turn_index :=
                     skipFinished g.players (g.current_turn_index + 1) }) ∧
        (advanceTurn g).map Game.deck = some g.deck) := by
  intro g hph hpd hnoact
  have hfin : ∀ p ∈ g.players, p.allHandsFinished = true := by
    intro p hp
    rw [Player.allHandsFinished, List.all_eq_true]
    intro h hh
    simpa using hnoact p hp h hh
  have hadv : advanceTurn g = some (advanceSeats g) := by
    cases hcp : getCurrentPlayer g with
    | none => exact advanceTurn_of_none hcp
    | some p =>
      exact advanceTurn_of_finished hcp
        (hfin p (getCurrentPlayer_playing_mem hph hcp))
  by_cases hbu : allPlayersBustedOrSurrendered g = true
  · have hseats : advanceSeats g = { g with phase := GamePhase.RESULTS } := by
      simp only [advanceSeats]
      cases hcp : getCurrentPlayer g with
      | none => simp [hbu]
      | some p => simp [hpd p (getCurrentPlayer_playing_mem hph hcp), hbu]
    have hrhs := (allBusted_iff g).mp hbu
    refine ⟨iff_of_true (by rw [hadv, hseats]) hrhs, fun hn => absurd hrhs hn⟩
  · have hna : ¬ (g.players ≠ [] ∧ ∀ p ∈ g.players, ∀ h ∈ p.hands,
        h.status = HandStatus.BUST ∨ h.status = HandStatus.SURRENDER) :=
      fun hr => hbu ((allBusted_iff g).mpr hr)
    have hskip : g.players.length ≤
        skipFinished g.players (g.current_turn_index + 1) :=
      skipFinished_ge_length _ hfin _
    have hseats : advanceSeats g = checkDealerAutoStand
        { g with phase := GamePhase.DEALER_TURN
                 current_turn_index :=
                   skipFinished g.players (g.current_turn_index + 1) } := by
      simp only [advanceSeats]
      cases hcp : getCurrentPlayer g with
      | none => simp [hbu, hskip]
      | some p =>
        simp [hpd p (getCurrentPlayer_playing_mem hph hcp), hbu, hskip]
    refine ⟨?_, fun _ => ⟨by rw [hadv, hseats], ?_⟩⟩
    · constructor
      · intro heq
        rw [hadv, hseats] at heq
        have hgame := Option.some.inj heq
        have hidx := congrArg Game.current_turn_index hgame
        rw [(checkDealerAutoStand_fields _).1] at hidx
        have hle := skipFinished_le g.players (g.current_turn_index + 1)
        simp at hidx
        omega
      · intro hr; exact absurd hr hna
    · rw [hadv, hseats]
      simp only [Option.map_some']
      rw [(checkDealerAutoStand_fields _).2.1]


def noPlayersGame : Game := { sampleGame with players := [] }

/-- C6 counterexample.  With zero seated players the condition "every hand
of every seated player is BUST or SURRENDER" holds vacuously, yet
`_advance_turn` does not go to RESULTS: `_check_all_players_busted_or_surrendered`
explicitly returns `False` for an empty player list, so the game enters
DEALER_TURN instead. -/
theorem advance_turn_empty_seats_counterexample :
    noPlayersGame.phase = GamePhase.PLAYING ∧
    (∀ p ∈ noPlayersGame.players, ∀ h ∈ p.hands,
      h.status = HandStatus.BUST ∨ h.status = HandStatus.SURRENDER) ∧
    (advanceTurn noPlayersGame).map Game.phase = some GamePhase.DEALER_TURN := by
  refine ⟨rfl, by simp [noPlayersGame, sampleGame], ?_⟩
  have h1 : getCurrentPlayer noPlayersGame = none := rfl
  rw [advanceTurn_of_none h1]
  have hskip : skipFinished noPlayersGame.players
      (noPlayersGame.current_turn_index + 1) = 1 := by
    rw [skipFinished]
    simp [noPlayersGame, sampleGame]
  simp only [advanceSeats, h1, hskip]
  decide

def bustedPlayer : Player :=
  { samplePlayer with hands := [{ samplePlayerHand with status := HandStatus.BUST }] }

def bustedGame : Game := { sampleGame with players := [bustedPlayer] }

/-- Closed instance of `advance_turn_results_iff_all_busted`: with the single
seated player busted, turn advancement moves straight to RESULTS. -/
theorem advance_turn_results_iff_all_busted_witness :
    advanceTurn bustedGame = some { bustedGame with phase := GamePhase.RESULTS } :=
  (advance_turn_results_iff_all_busted bustedGame rfl
    (by decide) (by decide)).1.mpr ⟨by decide, by decide⟩


/-! ## C1: splitting a pair of Aces -/

lemma skipFinished_out_of_range (ps : List Player) (i : Nat)
    (h : ps.length ≤ i) : skipFinished ps i = i := by
  rw [skipFinished, dif_neg (by omega)]

lemma skipFinished_one_of_singleton (p : Player) : skipFinished [p] 1 = 1 :=
  skipFinished_out_of_range [p] 1 (by simp)

/-- C1 counterexample.  The claim says a successful Aces split yields two
hands "each containing exactly one card"; in the code each resulting hand
holds TWO cards — the retained Ace plus exactly one freshly drawn card
(`hand1.cards.append(new_card1)` and `hand2.cards.append(self.deck.draw())`).
Splitting the sample A♠,A♥ hand yields two 2-card SPLIT_ACES hands. -/
theorem split_aces_counterexample :
    (splitAct sampleGame 7).map (fun r =>
      (r.1, r.2.players.map (fun p =>
        p.hands.map (fun h => (h.cards.length, h.status))))) =
      some (true, [[(2, HandStatus.SPLIT_ACES), (2, HandStatus.SPLIT_ACES)]]) := by
  simp [splitAct, sampleGame, samplePlayer, samplePlayerHand, sampleDealer,
    sampleDealerHand, getCurrentPlayer, Player.currentHand, writeCurrentPlayer,
    advanceTurn, advanceFuel, advanceTurnAux, advanceSeats, Player.setHand,
    Player.allHandsFinished, allPlayersBustedOrSurrendered, competitiveStatus,
    checkDealerAutoStand, dealerHand, drawCard, can_split, emptyHand,
    calculate_hand_value, highTotal, aceCount, adjustAces,
    is_soft_hand, cardLowValue, cardHighValue, aceSpades, aceHearts, kingSpades,
    sixHearts, nineClubs, tenClubs, fiveDiamonds]
  rw [skipFinished_one_of_singleton]
  decide


lemma writeCurrentPlayer_playing {g : Game} {q : Player}
    (hph : g.phase ≠ GamePhase.DEALER_TURN) :
    writeCurrentPlayer g q =
      { g with players := g.players.set g.current_turn_index q } := by
  simp [writeCurrentPlayer, hph]

lemma checkDealerAutoStand_phase (g : Game) :
    (checkDealerAutoStand g).phase = g.phase ∨
      (checkDealerAutoStand g).phase = GamePhase.RESULTS := by
  simp only [checkDealerAutoStand]
  by_cases h1 : g.phase ≠ GamePhase.DEALER_TURN
  · rw [if_pos h1]; exact Or.inl rfl
  · rw [if_neg h1]
    by_cases h2 : calculate_hand_value (dealerHand g).cards < 17
    · rw [if_pos h2]; exact Or.inl rfl
    · rw [if_neg h2]
      by_cases h3 : calculate_hand_value (dealerHand g).cards = 17 ∧
        is_soft_hand (dealerHand g).cards = true
      · rw [if_pos h3]; exact Or.inl rfl
      · rw [if_neg h3]; exact Or.inr rfl

lemma checkDealerAutoStand_phase_ne_playing {g : Game}
    (h : g.phase = GamePhase.DEALER_TURN) :
    (checkDealerAutoStand g).phase ≠ GamePhase.PLAYING := by
  rcases checkDealerAutoStand_phase g with hX | hX <;> rw [hX] <;> simp [h]

lemma advanceSeats_fields (g : Game) :
    (advanceSeats g).players = g.players ∧ (advanceSeats g).deck = g.deck := by
  simp only [advanceSeats]
  split
  · exact ⟨rfl, rfl⟩
  · split
    · exact ⟨rfl, rfl⟩
    · split
      · exact ⟨(checkDealerAutoStand_fields _).2.2, (checkDealerAutoStand_fields _).2.1⟩
      · exact ⟨rfl, rfl⟩

/-- C1 (amended: each split-Aces hand receives exactly one additional card,
holding two cards in total).  Splitting a pair of Aces yields two hands —
each retaining one Ace and receiving exactly one drawn card — both
immediately marked SPLIT_ACES; the turn auto-advances past them (the phase
leaves PLAYING or the seat pointer moves strictly forward), and no player
action (hit/stand/double/split/surrender) is possible on a hand whose
status is SPLIT_ACES: every action returns its invalid-move signal and
leaves the state unchanged. -/
theorem split_aces_auto_stand :
    (∀ (g : Game) (uid : Nat) (p : Player) (h : PlayerHand) (a1 a2 c1 c2 : Card)
        (d1 d2 : List Card),
      g.phase = GamePhase.PLAYING →
      getCurrentPlayer g = some p →
      p.user_id = uid → p.is_dealer = false →
      p.hands = [h] → p.current_hand_index = 0 →
      h.status = HandStatus.ACTIVE → h.cards = [a1, a2] →
      a1.rank = Rank.ace → a2.rank = Rank.ace →
      drawCard g.deck = some (c1, d1) → drawCard d1 = some (c2, d2) →
      ∃ g', splitAct g uid = some (true, g') ∧
        g'.players = g.players.set g.current_turn_index
          { p with hands :=
            [{ cards := [a1, c1], status := HandStatus.SPLIT_ACES,
               is_split := true, is_split_aces := true },
             { cards := [a2, c2], status := HandStatus.SPLIT_ACES,
               is_split := true, is_split_aces := true }] } ∧
        g'.deck = d2 ∧
        (g'.phase ≠ GamePhase.PLAYING ∨
          g.current_turn_index < g'.current_turn_index)) ∧
    (∀ (g : Game) (uid : Nat) (p : Player),
      getCurrentPlayer g = some p →
      p.currentHand.status = HandStatus.SPLIT_ACES →
      hitAct g uid = some (none, g) ∧ standAct g uid = some (false, g) ∧
      doubleDownAct g uid = some (none, g) ∧ splitAct g uid = some (false, g) ∧
      surrenderAct g uid = some (false, g)) := by
  constructor
  · intro g uid p h a1 a2 c1 c2 d1 d2 hph hcp huid hdl hhands hidx hstat hcards
      ha1 ha2 hdraw1 hdraw2
    have hpsome : g.players[g.current_turn_index]? = some p := by
      rw [getCurrentPlayer] at hcp
      simp [hph] at hcp
      exact hcp
    have hidxlt : g.current_turn_index < g.players.length :=
      (List.getElem?_eq_some_iff.mp hpsome).1
    have hch : p.currentHand = h := by
      simp [Player.currentHand, hhands, hidx]
    have hcan : can_split h.cards = true := by
      rw [hcards]; simp [can_split, ha1, ha2]
    rw [hcards] at hcan
    set hand1a : PlayerHand := { cards := [a1, c1]
                                 status := HandStatus.SPLIT_ACES
                                 is_split := true
                                 is_split_aces := true } with hh1
    set hand2a : PlayerHand := { cards := [a2, c2]
                                 status := HandStatus.SPLIT_ACES
                                 is_split := true
                                 is_split_aces := true } with hh2
    set p1 : Player := { user_id := uid
                         username := p.username
                         hands := [hand1a, hand2a]
                         is_dealer := false
                         current_hand_index := 0 } with hp1
    have hpe : p1 = { p with hands := [hand1a, hand2a] } := by
      rw [hp1, huid, hdl, hidx]
    set g1 : Game := { g with deck := d2
                              players := g.players.set g.current_turn_index p1
                              phase := GamePhase.PLAYING } with hg1
    have hget1 : getCurrentPlayer g1 = some p1 := by
      rw [getCurrentPlayer]
      rw [show g1.phase = GamePhase.PLAYING from by rw [hg1]]
      simp [hg1, List.getElem?_set, hidxlt]
    have hfin1 : p1.allHandsFinished = true := by
      simp [hp1, Player.allHandsFinished, hh1, hh2]
    have hadv : advanceTurn g1 = some (advanceSeats g1) :=
      advanceTurn_of_finished hget1 hfin1
    have hmem1 : p1 ∈ g1.players := by
      have hs : g1.players[g.current_turn_index]? = some p1 := by
        simp [hg1, List.getElem?_set, hidxlt]
      rcases List.getElem?_eq_some_iff.mp hs with ⟨hlt, hel⟩
      exact hel ▸ List.getElem_mem hlt
    have hnb : allPlayersBustedOrSurrendered g1 = false := by
      cases hb : allPlayersBustedOrSurrendered g1 with
      | false => rfl
      | true =>
        exfalso
        obtain ⟨_, hall⟩ := (allBusted_iff g1).mp hb
        have h1 := hall p1 hmem1 hand1a (by rw [hp1]; exact List.mem_cons_self _ _)
        rcases h1 with h1 | h1 <;> rw [hh1] at h1 <;> cases h1
    have hpd1 : p1.is_dealer = false := by rw [hp1]
    refine ⟨advanceSeats g1, ?_, ?_, ?_, ?_⟩
    · simp only [splitAct, hcp, huid, ne_eq, not_true_eq_false, if_false, ite_not,
        hdl, Bool.false_eq_true, hch, hcan, if_true, hstat, hcards, ha1, hdraw1,
        hdraw2, hhands, hidx, writeCurrentPlayer, hph, reduceIte, reduceCtorEq,
        decide_True, List.set_cons_zero]
      rw [show List.insertIdx (0 + 1) hand2a [hand1a] = [hand1a, hand2a] from rfl]
      rw [← hp1, ← hg1, hadv]
      rfl
    · rw [(advanceSeats_fields g1).1, hg1, hpe]
    · rw [(advanceSeats_fields g1).2, hg1]
    · simp only [advanceSeats, hget1, hpd1, hnb]
      have hle := skipFinished_le g1.players (g.current_turn_index + 1)
      by_cases hlen : g1.players.length ≤
          skipFinished g1.players (g.current_turn_index + 1)
      · simp only [Bool.false_and, Bool.false_eq_true, if_false, hlen, if_true]
        exact Or.inl (checkDealerAutoStand_phase_ne_playing rfl)
      · simp only [Bool.false_and, Bool.false_eq_true, if_false, hlen]
        exact Or.inr (by
          show g.current_turn_index < skipFinished g1.players (g.current_turn_index + 1)
          omega)
  · intro g uid p hcp hsa
    have hst : p.currentHand.status ≠ HandStatus.ACTIVE := by
      rw [hsa]; simp
    by_cases huid : p.user_id = uid
    · exact ⟨hitAct_not_active hcp huid hst, standAct_not_active hcp huid hst,
        doubleDownAct_not_active hcp huid hst, splitAct_not_active hcp huid hst,
        surrenderAct_not_active hcp huid hst⟩
    · exact ⟨hitAct_wrong_user hcp huid, standAct_wrong_user hcp huid,
        doubleDownAct_wrong_user hcp huid, splitAct_wrong_user hcp huid,
        surrenderAct_wrong_user hcp huid⟩

/-- Closed instance of `split_aces_auto_stand` on the sample game: the pair
of Aces splits into two SPLIT_ACES hands and turn control moves on. -/
theorem split_aces_auto_stand_witness :
    ∃ g', splitAct sampleGame 7 = some (true, g') ∧
      g'.players = sampleGame.players.set sampleGame.current_turn_index
        { samplePlayer with hands :=
          [{ cards := [aceSpades, tenClubs], status := HandStatus.SPLIT_ACES,
             is_split := true, is_split_aces := true },
           { cards := [aceHearts, nineClubs], status := HandStatus.SPLIT_ACES,
             is_split := true, is_split_aces := true }] } ∧
      g'.deck = [fiveDiamonds] ∧
      (g'.phase ≠ GamePhase.PLAYING ∨
        sampleGame.current_turn_index < g'.current_turn_index) :=
  split_aces_auto_stand.1 sampleGame 7 samplePlayer samplePlayerHand
    aceSpades aceHearts tenClubs nineClubs [fiveDiamonds, nineClubs]
    [fiveDiamonds] rfl (by decide) rfl rfl rfl rfl rfl rfl rfl rfl
    (by decide) (by decide)



/-! ## Helper lemmas: player-identity preservation -/

/-- The seated players' user ids, in seat order. -/
def playerIds (g : Game) : List Nat := g.players.map Player.user_id

/-- State changes that leave the seating identity data untouched. -/
def SameIds (g g' : Game) : Prop :=
  playerIds g' = playerIds g ∧ g'.dealer.user_id = g.dealer.user_id ∧
    g'.dealer_id = g.dealer_id ∧ g'.max_players = g.max_players

lemma SameIds.refl (g : Game) : SameIds g g := ⟨rfl, rfl, rfl, rfl⟩

lemma SameIds.trans {g1 g2 g3 : Game} (h12 : SameIds g1 g2)
    (h23 : SameIds g2 g3) : SameIds g1 g3 :=
  ⟨h23.1.trans h12.1, h23.2.1.trans h12.2.1, h23.2.2.1.trans h12.2.2.1,
   h23.2.2.2.trans h12.2.2.2⟩

lemma set_eq_self_of_getElem? {α : Type} :
    ∀ (l : List α) (i : Nat) (a : α), l[i]? = some a → l.set i a = l
  | [], _, _, h => by simp at h
  | x :: t, 0, a, h => by
    simp only [List.getElem?_cons_zero, Option.some.injEq] at h
    rw [← h]
    rfl
  | x :: t, i + 1, a, h => by
    simp only [List.getElem?_cons_succ] at h
    simp only [List.set_cons_succ]
    rw [set_eq_self_of_getElem? t i a h]

lemma map_userId_set {l : List Player} {i : Nat} {q p : Player}
    (hp : l[i]? = some p) (hq : q.user_id = p.user_id) :
    (l.set i q).map Player.user_id = l.map Player.user_id := by
  rw [List.map_set]
  have hm : (l.map Player.user_id)[i]? = some p.user_id := by
    rw [List.getElem?_map, hp]
    rfl
  rw [hq]
  exact set_eq_self_of_getElem? _ i _ hm

lemma writeCurrentPlayer_sameIds {g : Game} {p q : Player}
    (hcp : getCurrentPlayer g = some p) (hq : q.user_id = p.user_id) :
    SameIds g (writeCurrentPlayer g q) := by
  by_cases h1 : g.phase = GamePhase.DEALER_TURN
  · have hpd : p = g.dealer := by
      rw [getCurrentPlayer, if_pos h1] at hcp
      exact (Option.some.inj hcp).symm
    rw [writeCurrentPlayer, if_pos h1]
    exact ⟨rfl, by rw [hq, hpd], rfl, rfl⟩
  · have hps : g.players[g.current_turn_index]? = some p := by
      rw [getCurrentPlayer, if_neg h1] at hcp
      by_cases h2 : g.phase = GamePhase.PLAYING
      · rwa [if_neg (by simp [h2])] at hcp
      · rw [if_pos (by simp [h2])] at hcp
        exact absurd hcp (by simp)
    rw [writeCurrentPlayer, if_neg h1]
    exact ⟨map_userId_set hps hq, rfl, rfl, rfl⟩

lemma checkDealerAutoStand_dealer_uid (g : Game) :
    (checkDealerAutoStand g).dealer.user_id = g.dealer.user_id := by
  simp only [checkDealerAutoStand]
  by_cases h1 : g.phase ≠ GamePhase.DEALER_TURN
  · rw [if_pos h1]
  · rw [if_neg h1]
    by_cases h2 : calculate_hand_value (dealerHand g).cards < 17
    · rw [if_pos h2]
    · rw [if_neg h2]
      by_cases h3 : calculate_hand_value (dealerHand g).cards = 17 ∧
        is_soft_hand (dealerHand g).cards = true
      · rw [if_pos h3]
      · rw [if_neg h3]

lemma checkDealerAutoStand_sameIds (g : Game) :
    SameIds g (checkDealerAutoStand g) := by
  refine ⟨?_, checkDealerAutoStand_dealer_uid g, ?_, ?_⟩
  · rw [playerIds, playerIds, (checkDealerAutoStand_fields g).2.2]
  · simp only [checkDealerAutoStand]
    by_cases h1 : g.phase ≠ GamePhase.DEALER_TURN
    · rw [if_pos h1]
    · rw [if_neg h1]
      by_cases h2 : calculate_hand_value (dealerHand g).cards < 17
      · rw [if_pos h2]
      · rw [if_neg h2]
        by_cases h3 : calculate_hand_value (dealerHand g).cards = 17 ∧
          is_soft_hand (dealerHand g).cards = true
        · rw [if_pos h3]
        · rw [if_neg h3]
  · simp only [checkDealerAutoStand]
    by_cases h1 : g.phase ≠ GamePhase.DEALER_TURN
    · rw [if_pos h1]
    · rw [if_neg h1]
      by_cases h2 : calculate_hand_value (dealerHand g).cards < 17
      · rw [if_pos h2]
      · rw [if_neg h2]
        by_cases h3 : calculate_hand_value (dealerHand g).cards = 17 ∧
          is_soft_hand (dealerHand g).cards = true
        · rw [if_pos h3]
        · rw [if_neg h3]

lemma advanceSeats_sameIds (g : Game) : SameIds g (advanceSeats g) := by
  simp only [advanceSeats]
  split
  · exact ⟨rfl, rfl, rfl, rfl⟩
  · split
    · exact ⟨rfl, rfl, rfl, rfl⟩
    · split
      · exact checkDealerAutoStand_sameIds _
      · exact ⟨rfl, rfl, rfl, rfl⟩


lemma advanceTurnAux_sameIds :
    ∀ (fuel : Nat) {g g' : Game}, advanceTurnAux fuel g = some g' →
      SameIds g g' := by
  intro fuel
  induction fuel with
  | zero => intro g g' h; exact absurd h (by simp [advanceTurnAux])
  | succ n ih =>
    intro g g' h
    rw [advanceTurnAux_succ] at h
    cases hcp : getCurrentPlayer g with
    | none =>
      rw [hcp] at h
      dsimp only at h
      exact (Option.some.inj h) ▸ advanceSeats_sameIds g
    | some p =>
      rw [hcp] at h
      dsimp only at h
      by_cases hc1 : ¬ p.allHandsFinished = true ∧
        p.current_hand_index + 1 < p.hands.length
      · rw [if_pos hc1] at h
        by_cases hlen : ({ p with current_hand_index :=
            p.current_hand_index + 1 } : Player).currentHand.cards.length = 1
        · rw [if_pos hlen] at h
          cases hdc : drawCard g.deck with
          | none => rw [hdc] at h; exact absurd h (by simp)
          | some cd =>
            obtain ⟨c, deck'⟩ := cd
            rw [hdc] at h
            dsimp only at h
            by_cases hsa : ({ p with current_hand_index :=
                p.current_hand_index + 1 } : Player).currentHand.is_split_aces = true
            · rw [if_pos hsa] at h
              have hrest := ih h
              refine SameIds.trans ?_ hrest
              exact writeCurrentPlayer_sameIds
                (show getCurrentPlayer { g with deck := deck' } = some p from hcp)
                rfl
            · rw [if_neg hsa] at h
              have hg' := Option.some.inj h
              refine hg' ▸ ?_
              exact writeCurrentPlayer_sameIds
                (show getCurrentPlayer { g with deck := deck' } = some p from hcp)
                rfl
        · rw [if_neg hlen] at h
          have hg' := Option.some.inj h
          exact hg' ▸ writeCurrentPlayer_sameIds hcp rfl
      · rw [if_neg hc1] at h
        exact (Option.some.inj h) ▸ advanceSeats_sameIds g

lemma advanceTurn_sameIds {g g' : Game} (h : advanceTurn g = some g') :
    SameIds g g' :=
  advanceTurnAux_sameIds _ h


lemma snd_of_some_pair {α β : Type} {a : α} {b : β} {r : α} {g' : β}
    (h : some (a, b) = some (r, g')) : b = g' :=
  congrArg Prod.snd (Option.some.inj h)

lemma snd_of_pair_eq {α β : Type} {a : α} {b : β} {r : α} {g' : β}
    (h : (a, b) = (r, g')) : b = g' :=
  congrArg Prod.snd h

lemma hitAct_sameIds {g : Game} {uid : Nat} {r : Option Card} {g' : Game}
    (h : hitAct g uid = some (r, g')) : SameIds g g' := by
  rw [hitAct] at h
  cases hcp : getCurrentPlayer g with
  | none =>
    rw [hcp] at h
    dsimp only at h
    exact (snd_of_some_pair h) ▸ SameIds.refl g
  | some p =>
    rw [hcp] at h
    dsimp only at h
    split at h
    · exact (snd_of_some_pair h) ▸ SameIds.refl g
    · split at h
      · exact (snd_of_some_pair h) ▸ SameIds.refl g
      · split at h
        · exact (snd_of_some_pair h) ▸ SameIds.refl g
        · split at h
          · exact absurd h (by simp)
          · next c deck' hdc =>
            split at h
            · obtain ⟨g2, hg2, he⟩ := Option.map_eq_some'.mp h
              refine (snd_of_pair_eq he) ▸ ?_
              refine SameIds.trans ?_ (advanceTurn_sameIds hg2)
              exact writeCurrentPlayer_sameIds
                (show getCurrentPlayer { g with deck := deck' } = some p from hcp)
                rfl
            · split at h
              · split at h
                · refine (snd_of_some_pair h) ▸ ?_
                  exact writeCurrentPlayer_sameIds
                    (show getCurrentPlayer { g with deck := deck' } = some p from hcp)
                    rfl
                · refine (snd_of_some_pair h) ▸ ?_
                  exact writeCurrentPlayer_sameIds
                    (show getCurrentPlayer { g with deck := deck' } = some p from hcp)
                    rfl
              · refine (snd_of_some_pair h) ▸ ?_
                exact writeCurrentPlayer_sameIds
                  (show getCurrentPlayer { g with deck := deck' } = some p from hcp)
                  rfl


lemma standAct_sameIds {g : Game} {uid : Nat} {r : Bool} {g' : Game}
    (h : standAct g uid = some (r, g')) : SameIds g g' := by
  rw [standAct] at h
  cases hcp : getCurrentPlayer g with
  | none =>
    rw [hcp] at h
    dsimp only at h
    exact (snd_of_some_pair h) ▸ SameIds.refl g
  | some p =>
    rw [hcp] at h
    dsimp only at h
    split at h
    · exact (snd_of_some_pair h) ▸ SameIds.refl g
    · split at h
      · exact (snd_of_some_pair h) ▸ SameIds.refl g
      · split at h
        · exact (snd_of_some_pair h) ▸ SameIds.refl g
        · split at h
          · refine (snd_of_some_pair h) ▸ ?_
            exact writeCurrentPlayer_sameIds hcp rfl
          · obtain ⟨g2, hg2, he⟩ := Option.map_eq_some'.mp h
            refine (snd_of_pair_eq he) ▸ ?_
            refine SameIds.trans ?_ (advanceTurn_sameIds hg2)
            exact writeCurrentPlayer_sameIds hcp rfl

lemma doubleDownAct_sameIds {g : Game} {uid : Nat} {r : Option Card} {g' : Game}
    (h : doubleDownAct g uid = some (r, g')) : SameIds g g' := by
  rw [doubleDownAct] at h
  cases hcp : getCurrentPlayer g with
  | none =>
    rw [hcp] at h
    dsimp only at h
    exact (snd_of_some_pair h) ▸ SameIds.refl g
  | some p =>
    rw [hcp] at h
    dsimp only at h
    split at h
    · exact (snd_of_some_pair h) ▸ SameIds.refl g
    · split at h
      · exact (snd_of_some_pair h) ▸ SameIds.refl g
      · split at h
        · exact (snd_of_some_pair h) ▸ SameIds.refl g
        · split at h
          · exact (snd_of_some_pair h) ▸ SameIds.refl g
          · split at h
            · exact absurd h (by simp)
            · next c deck' hdc =>
              obtain ⟨g2, hg2, he⟩ := Option.map_eq_some'.mp h
              refine (snd_of_pair_eq he) ▸ ?_
              refine SameIds.trans ?_ (advanceTurn_sameIds hg2)
              exact writeCurrentPlayer_sameIds
                (show getCurrentPlayer { g with deck := deck' } = some p from hcp)
                rfl

lemma surrenderAct_sameIds {g : Game} {uid : Nat} {r : Bool} {g' : Game}
    (h : surrenderAct g uid = some (r, g')) : SameIds g g' := by
  rw [surrenderAct] at h
  cases hcp : getCurrentPlayer g with
  | none =>
    rw [hcp] at h
    dsimp only at h
    exact (snd_of_some_pair h) ▸ SameIds.refl g
  | some p =>
    rw [hcp] at h
    dsimp only at h
    split at h
    · exact (snd_of_some_pair h) ▸ SameIds.refl g
    · split at h
      · exact (snd_of_some_pair h) ▸ SameIds.refl g
      · split at h
        · exact (snd_of_some_pair h) ▸ SameIds.refl g
        · split at h
          · exact (snd_of_some_pair h) ▸ SameIds.refl g
          · obtain ⟨g2, hg2, he⟩ := Option.map_eq_some'.mp h
            refine (snd_of_pair_eq he) ▸ ?_
            refine SameIds.trans ?_ (advanceTurn_sameIds hg2)
            exact writeCurrentPlayer_sameIds hcp rfl

lemma splitAct_sameIds {g : Game} {uid : Nat} {r : Bool} {g' : Game}
    (h : splitAct g uid = some (r, g')) : SameIds g g' := by
  rw [splitAct] at h
  cases hcp : getCurrentPlayer g with
  | none =>
    rw [hcp] at h
    dsimp only at h
    exact (snd_of_some_pair h) ▸ SameIds.refl g
  | some p =>
    rw [hcp] at h
    dsimp only at h
    split at h
    · exact (snd_of_some_pair h) ▸ SameIds.refl g
    · split at h
      · exact (snd_of_some_pair h) ▸ SameIds.refl g
      · split at h
        · exact (snd_of_some_pair h) ▸ SameIds.refl g
        · split at h
          · exact (snd_of_some_pair h) ▸ SameIds.refl g
          · split at h
            · next card1 card2 =>
              split at h
              · exact absurd h (by simp)
              · next c1 deck1 hdc1 =>
                split at h
                · split at h
                  · exact absurd h (by simp)
                  · next c2 deck2 hdc2 =>
                    obtain ⟨g2, hg2, he⟩ := Option.map_eq_some'.mp h
                    refine (snd_of_pair_eq he) ▸ ?_
                    refine SameIds.trans ?_ (advanceTurn_sameIds hg2)
                    exact writeCurrentPlayer_sameIds
                      (show getCurrentPlayer { g with deck := deck2 } = some p from hcp)
                      rfl
                · refine (snd_of_some_pair h) ▸ ?_
                  exact writeCurrentPlayer_sameIds
                    (show getCurrentPlayer { g with deck := deck1 } = some p from hcp)
                    rfl
            · exact (snd_of_some_pair h) ▸ SameIds.refl g

lemma toggleStyle_sameIds {g : Game} {r : Bool} {g' : Game}
    (h : toggleStyle g = (r, g')) : SameIds g g' := by
  rw [toggleStyle] at h
  exact (snd_of_pair_eq h) ▸ SameIds.refl g


lemma giveCardToFirstHand_user_id (p : Player) (c : Card) :
    (giveCardToFirstHand p c).user_id = p.user_id := rfl

lemma dealRound_ids :
    ∀ {ps : List Player} {deck : List Card} {ps' : List Player}
      {deck' : List Card}, dealRound ps deck = some (ps', deck') →
      ps'.map Player.user_id = ps.map Player.user_id := by
  intro ps
  induction ps with
  | nil =>
    intro deck ps' deck' h
    rw [dealRound, Option.some.injEq, Prod.mk.injEq] at h
    rw [← h.1]
  | cons p rest ih =>
    intro deck ps' deck' h
    rw [dealRound] at h
    split at h
    · exact absurd h (by simp)
    · next c d1 hdc =>
      split at h
      · exact absurd h (by simp)
      · next rest' d2 hdr =>
        rw [Option.some.injEq, Prod.mk.injEq] at h
        rw [← h.1]
        simp [giveCardToFirstHand_user_id, ih hdr]

lemma dealInitialCards_sameIds {g g' : Game} (h : dealInitialCards g = some g') :
    SameIds g g' := by
  rw [dealInitialCards] at h
  split at h
  · exact absurd h (by simp)
  · next ps1 d1 hps1 =>
    split at h
    · exact absurd h (by simp)
    · next c1 d2 hc1 =>
      dsimp only at h
      split at h
      · exact absurd h (by simp)
      · next ps2 d3 hps2 =>
        split at h
        · exact absurd h (by simp)
        · next c2 d4 hc2 =>
          rw [Option.some.injEq] at h
          subst h
          refine ⟨?_, rfl, rfl, rfl⟩
          show ps2.map Player.user_id = playerIds g
          rw [dealRound_ids hps2, dealRound_ids hps1]
          rfl

lemma markFirstHand_user_id (p : Player) (s : HandStatus) :
    (markFirstHand p s).user_id = p.user_id := rfl

lemma startGame_sameIds {g : Game} {r : Bool} {g' : Game}
    (h : startGame g = some (r, g')) : SameIds g g' := by
  rw [startGame] at h
  split at h
  · exact (snd_of_some_pair h) ▸ SameIds.refl g
  · split at h
    · exact (snd_of_some_pair h) ▸ SameIds.refl g
    · split at h
      · exact absurd h (by simp)
      · next g1 hdeal =>
        have hg1' := dealInitialCards_sameIds hdeal
        have hg1 : SameIds g g1 := ⟨hg1'.1, hg1'.2.1, hg1'.2.2.1, hg1'.2.2.2⟩
        dsimp only at h
        split at h
        · refine (snd_of_some_pair h) ▸ ?_
          exact SameIds.trans hg1
            ⟨rfl, markFirstHand_user_id g1.dealer HandStatus.BLACKJACK, rfl, rfl⟩
        · have hmap : (g1.players.map (fun p =>
              if is_blackjack (p.hands.getD 0 emptyHand).cards
              then markFirstHand p HandStatus.BLACKJACK else p)).map Player.user_id =
              g1.players.map Player.user_id := by
            rw [List.map_map]
            refine List.map_congr_left ?_
            intro p _
            show (if is_blackjack (p.hands.getD 0 emptyHand).cards
              then markFirstHand p HandStatus.BLACKJACK else p).user_id = p.user_id
            split
            · exact markFirstHand_user_id p HandStatus.BLACKJACK
            · rfl
          split at h
          · refine (snd_of_some_pair h) ▸ ?_
            refine SameIds.trans ?_ (checkDealerAutoStand_sameIds _)
            exact ⟨hmap.trans hg1.1, hg1.2.1, hg1.2.2.1, hg1.2.2.2⟩
          · refine (snd_of_some_pair h) ▸ ?_
            exact ⟨hmap.trans hg1.1, hg1.2.1, hg1.2.2.1, hg1.2.2.2⟩


/-- The seating invariant: lobby capacity respected, seated ids distinct,
dealer seated apart, dealer object consistent with `dealer_id`. -/
def GameInv (g : Game) : Prop :=
  g.players.length ≤ g.max_players ∧ (playerIds g).Nodup ∧
    g.dealer_id ∉ playerIds g ∧ g.dealer.user_id = g.dealer_id

lemma playerIds_length (g : Game) : (playerIds g).length = g.players.length :=
  List.length_map _ _

lemma GameInv_of_sameIds {g g' : Game} (hs : SameIds g g') (hi : GameInv g) :
    GameInv g' := by
  obtain ⟨hids, hduid, hdid, hmax⟩ := hs
  obtain ⟨hlen, hnd, hnotin, hde⟩ := hi
  refine ⟨?_, ?_, ?_, ?_⟩
  · have hl : (playerIds g').length = (playerIds g).length := by rw [hids]
    rw [playerIds_length, playerIds_length] at hl
    rw [hl, hmax]
    exact hlen
  · rw [hids]; exact hnd
  · rw [hdid, hids]; exact hnotin
  · rw [hduid, hdid]; exact hde

lemma addPlayer_inv {g : Game} {uid : Nat} {name : String} {r : Bool}
    {g' : Game} (h : addPlayer g uid name = (r, g')) (hi : GameInv g) :
    GameInv g' := by
  rw [addPlayer] at h
  split at h
  · exact (snd_of_pair_eq h) ▸ hi
  · split at h
    · exact (snd_of_pair_eq h) ▸ hi
    · split at h
      · exact (snd_of_pair_eq h) ▸ hi
      · next h3 =>
        split at h
        · exact (snd_of_pair_eq h) ▸ hi
        · next h4 =>
          next h2 =>
          refine (snd_of_pair_eq h) ▸ ?_
          obtain ⟨hlen, hnd, hnotin, hde⟩ := hi
          have hnin : uid ∉ playerIds g := by
            intro hmem
            obtain ⟨p, hp, hpe⟩ := List.mem_map.mp hmem
            exact h3 (List.any_eq_true.mpr ⟨p, hp, by simpa using hpe⟩)
          refine ⟨?_, ?_, ?_, hde⟩
          · show (g.players ++ [_]).length ≤ g.max_players
            rw [List.length_append]
            simp only [List.length_cons, List.length_nil]
            omega
          · show (List.map Player.user_id (g.players ++ [_])).Nodup
            rw [List.map_append, List.nodup_append]
            refine ⟨hnd, List.nodup_singleton uid, ?_⟩
            intro a ha hb
            simp only [List.map_cons, List.map_nil, List.mem_singleton] at hb
            exact hnin (hb ▸ ha)
          · show g.dealer_id ∉ List.map Player.user_id (g.players ++ [_])
            rw [List.map_append]
            intro hmem
            rcases List.mem_append.mp hmem with hmem | hmem
            · exact hnotin hmem
            · simp only [List.map_cons, List.map_nil,
                List.mem_singleton] at hmem
              exact h4 hmem.symm

lemma removePlayer_inv {g : Game} {uid : Nat} {r : Bool} {g' : Game}
    (h : removePlayer g uid = (r, g')) (hi : GameInv g) : GameInv g' := by
  rw [removePlayer] at h
  split at h
  · exact (snd_of_pair_eq h) ▸ hi
  · refine (snd_of_pair_eq h) ▸ ?_
    obtain ⟨hlen, hnd, hnotin, hde⟩ := hi
    have hsub : List.Sublist
        (List.map Player.user_id (g.players.filter (fun p => p.user_id ≠ uid)))
        (playerIds g) := (List.filter_sublist _).map _
    refine ⟨?_, ?_, ?_, hde⟩
    · exact le_trans (List.length_filter_le _ _) hlen
    · exact List.Nodup.sublist hsub hnd
    · intro hmem
      exact hnotin (hsub.subset hmem)

lemma reachable_inv {g : Game} (hg : Reachable g) : GameInv g := by
  induction hg with
  | init ch did dname mp tmo deck =>
    exact ⟨Nat.zero_le _, List.nodup_nil, List.not_mem_nil _, rfl⟩
  | toggle hR he ih => exact GameInv_of_sameIds (toggleStyle_sameIds he) ih
  | add hR he ih => exact addPlayer_inv he ih
  | remove hR he ih => exact removePlayer_inv he ih
  | start hR he ih => exact GameInv_of_sameIds (startGame_sameIds he) ih
  | hit hR he ih => exact GameInv_of_sameIds (hitAct_sameIds he) ih
  | stand hR he ih => exact GameInv_of_sameIds (standAct_sameIds he) ih
  | double hR he ih => exact GameInv_of_sameIds (doubleDownAct_sameIds he) ih
  | split hR he ih => exact GameInv_of_sameIds (splitAct_sameIds he) ih
  | surrender hR he ih =>
    exact GameInv_of_sameIds (surrenderAct_sameIds he) ih

/-- C10: in every reachable game state the players list holds at most
`max_players` entries, no two players share a `user_id`, and the dealer's
`user_id` never appears in the players list; and `add_player` returns
`False` leaving the state unchanged when the phase is not LOBBY, the lobby
is full, the id is already seated, or the id equals the dealer's id. -/
theorem reachable_seating_invariant :
    (∀ g : Game, Reachable g →
      g.players.length ≤ g.max_players ∧ (playerIds g).Nodup ∧
        g.dealer.user_id ∉ playerIds g) ∧
    (∀ (g : Game) (uid : Nat) (name : String),
      g.phase ≠ GamePhase.LOBBY ∨ g.max_players ≤ g.players.length ∨
        uid ∈ playerIds g ∨ uid = g.dealer_id →
      addPlayer g uid name = (false, g)) := by
  constructor
  · intro g hg
    obtain ⟨hlen, hnd, hnotin, hde⟩ := reachable_inv hg
    exact ⟨hlen, hnd, hde ▸ hnotin⟩
  · intro g uid name hbad
    rw [addPlayer]
    by_cases h1 : g.phase ≠ GamePhase.LOBBY
    · rw [if_pos h1]
    · rw [if_neg h1]
      by_cases h2 : g.max_players ≤ g.players.length
      · rw [if_pos h2]
      · rw [if_neg h2]
        by_cases h3 : g.players.any (fun p => p.user_id = uid) = true
        · rw [if_pos h3]
        · rw [if_neg h3]
          by_cases h4 : uid = g.dealer_id
          · rw [if_pos h4]
          · exfalso
            rcases hbad with hb | hb | hb | hb
            · exact h1 hb
            · exact h2 hb
            · obtain ⟨p, hp, hpe⟩ := List.mem_map.mp hb
              exact h3 (List.any_eq_true.mpr ⟨p, hp, by simpa using hpe⟩)
            · exact h4 hb

/-- Witness for C10 at the freshly constructed game and at `sampleGame`
(whose phase is PLAYING, so seating is rejected). -/
theorem reachable_seating_invariant_witness :
    ((initGame 5 1 "Dealer" 4 120 freshShoe).players.length ≤
        (initGame 5 1 "Dealer" 4 120 freshShoe).max_players ∧
      (playerIds (initGame 5 1 "Dealer" 4 120 freshShoe)).Nodup ∧
        (initGame 5 1 "Dealer" 4 120 freshShoe).dealer.user_id ∉
          playerIds (initGame 5 1 "Dealer" 4 120 freshShoe)) ∧
    addPlayer sampleGame 7 "Bob" = (false, sampleGame) :=
  ⟨reachable_seating_invariant.1 _ (Reachable.init 5 1 "Dealer" 4 120 freshShoe),
   reachable_seating_invariant.2 sampleGame 7 "Bob" (Or.inl (by decide))⟩

end PokeButler
